import Mathlib

/-!
Verification development for the combat core of a roguelike deck-builder.

The definitions below are a shallow embedding of the Python sources:
  src/core/enums.py, src/core/effects.py, src/core/events.py,
  src/entities/card.py, src/entities/player.py, src/entities/enemy.py,
  src/combat/energy_system.py, src/combat/status_effects.py,
  src/deck/deck_manager.py, src/data/relics/common_relics.py,
  src/combat/combat_manager.py.

Modelling conventions:
* Python ints are modelled as `Nat` where the code keeps them non-negative
  (HP after `max(0, ...)`, block, energy after the guarded `spend`, status
  stacks under the documented invariant that a kind with count <= 0 is
  absent), and as `Int` where the code allows negatives (card cost fields,
  which are clamped with `max(0, ...)` when read).
* `int(x * 1.5)` and `int(x * 0.75)` on a non-negative int `x` are exactly
  `3 * x / 2` and `3 * x / 4` in truncating `Nat` division.
* The status-effect dict is modelled as a record with one `Nat` counter per
  `StatusEffectType`; "key absent" is count 0 (the code deletes a key as
  soon as its count drops to <= 0, so absent and 0 coincide on every state
  the combat code produces).
* In-place mutation becomes explicit state passing.  A raised Python
  exception becomes an `Option String` error component that callers
  propagate; the state mutated before the raise is kept, matching Python
  object mutation surviving an exception.
* `random.shuffle` and enemy AI functions are parameters (`sigma`, `ai`)
  of the operations that use them.
* Within `src/` nothing ever subscribes a handler to the event bus, so an
  `emit` never mutates combat state; emits are modelled as no-ops except
  that building the HP_LOST event raises (see `PlayerS.takeDamage`).
-/

namespace RDB

/-- `StatusEffectType` from src/core/enums.py. -/
inductive StatusType
  | strength
  | dexterity
  | artifact
  | intangible
  | thorns
  | metallicize
  | platedArmor
  | regen
  | vulnerable
  | weak
  | frail
  | poison
  | ritual
deriving DecidableEq

/-- `TargetType` from src/core/enums.py. -/
inductive TargetKind
  | singleEnemy
  | allEnemies
  | selfTarget
  | randomEnemy
  | noTarget
deriving DecidableEq

/-- `CardType` from src/core/enums.py. -/
inductive CardKind
  | attack
  | skill
  | power
  | statusCard
  | curse
deriving DecidableEq

/-- `IntentType` from src/core/enums.py. -/
inductive IntentKind
  | attack
  | defend
  | buff
  | debuff
  | attackDefend
  | attackBuff
  | attackDebuff
  | unknown
  | sleeping
deriving DecidableEq, Inhabited

/-- `CombatPhase` from src/combat/combat_manager.py. -/
inductive Phase
  | notStarted
  | playerTurn
  | enemyTurn
  | combatEnd
deriving DecidableEq

/-- `CombatResult` from src/combat/combat_manager.py. -/
inductive ResultKind
  | inProgress
  | victory
  | defeat
deriving DecidableEq

/-- The `status_effects` dict of an entity: one stack counter per
`StatusEffectType`; absent key = 0 (the code removes keys at count <= 0). -/
structure StatusMap where
  strength : Nat
  dexterity : Nat
  artifact : Nat
  intangible : Nat
  thorns : Nat
  metallicize : Nat
  platedArmor : Nat
  regen : Nat
  vulnerable : Nat
  weak : Nat
  frail : Nat
  poison : Nat
  ritual : Nat
deriving DecidableEq

/-- The empty `status_effects` dict. -/
def StatusMap.empty : StatusMap :=
  ⟨0, 0, 0, 0, 0, 0, 0, 0, 0, 0, 0, 0, 0⟩

/-- `status_effects.get(k, 0)`. -/
def StatusMap.get (m : StatusMap) : StatusType → Nat
  | .strength => m.strength
  | .dexterity => m.dexterity
  | .artifact => m.artifact
  | .intangible => m.intangible
  | .thorns => m.thorns
  | .metallicize => m.metallicize
  | .platedArmor => m.platedArmor
  | .regen => m.regen
  | .vulnerable => m.vulnerable
  | .weak => m.weak
  | .frail => m.frail
  | .poison => m.poison
  | .ritual => m.ritual

/-- `status_effects[k] = n` (storing 0 coincides with deleting the key). -/
def StatusMap.set (m : StatusMap) : StatusType → Nat → StatusMap
  | .strength, n => { m with strength := n }
  | .dexterity, n => { m with dexterity := n }
  | .artifact, n => { m with artifact := n }
  | .intangible, n => { m with intangible := n }
  | .thorns, n => { m with thorns := n }
  | .metallicize, n => { m with metallicize := n }
  | .platedArmor, n => { m with platedArmor := n }
  | .regen, n => { m with regen := n }
  | .vulnerable, n => { m with vulnerable := n }
  | .weak, n => { m with weak := n }
  | .frail, n => { m with frail := n }
  | .poison, n => { m with poison := n }
  | .ritual, n => { m with ritual := n }

/-- The decrement pattern
`if k in d: d[k] -= 1; if d[k] <= 0: del d[k]`
(deleting is storing 0 in this model). -/
def StatusMap.decrementAndPrune (m : StatusMap) (k : StatusType) : StatusMap :=
  if m.get k > 0 then m.set k (m.get k - 1) else m

/-- The effect primitives of src/core/effects.py that card data instantiates
(`DamageEffect`, `BlockEffect`, `DrawEffect`, `ApplyStatusEffect`,
`GainEnergyEffect`, `HealEffect`, `ExhaustEffect`).  The `upgrade_amount`
fields only feed `get_description` and are omitted; `CompositeEffect` is
defined in the source but never instantiated by any card. -/
inductive Eff
  | damage (base : Nat) (times : Nat)
  | blockGain (base : Nat)
  | drawCards (n : Nat)
  | applyStatus (st : StatusType) (amount : Nat)
  | gainEnergy (amount : Nat)
  | healHp (amount : Nat)
  | exhaustChoice (count : Nat) (isRandom : Bool)
deriving DecidableEq

/-- `CardData` from src/entities/card.py (display-only fields omitted). -/
structure CardDataM where
  id : String
  cardKind : CardKind
  targetKind : TargetKind
  baseCost : Int
  baseEffects : List Eff
  upgradedCost : Option Int
  upgradedEffects : Option (List Eff)
  exhaust : Bool
  ethereal : Bool
  innate : Bool
  retain : Bool
  unplayable : Bool
deriving DecidableEq

/-- `CardInstance` from src/entities/card.py. -/
structure Card where
  data : CardDataM
  upgraded : Bool
  costModifier : Int
  costThisTurn : Option Int
  costThisCombat : Option Int
deriving DecidableEq

/-- `CardInstance.cost` (the turn override, else the combat override, else
base or upgraded cost plus modifier, each clamped with `max(0, ...)`). -/
def Card.cost (c : Card) : Nat :=
  match c.costThisTurn with
  | some v => (max 0 v).toNat
  | none =>
    match c.costThisCombat with
    | some v => (max 0 v).toNat
    | none =>
      let base :=
        if c.upgraded then
          match c.data.upgradedCost with
          | some u => u
          | none => c.data.baseCost
        else c.data.baseCost
      (max 0 (base + c.costModifier)).toNat

/-- `CardInstance.effects`. -/
def Card.effects (c : Card) : List Eff :=
  if c.upgraded then
    match c.data.upgradedEffects with
    | some fs => fs
    | none => c.data.baseEffects
  else c.data.baseEffects

/-- `CardInstance.copy` (fresh instance: same data, upgrade state and
permanent modifier; temporary cost overrides are not copied). -/
def Card.copy (c : Card) : Card :=
  ⟨c.data, c.upgraded, c.costModifier, none, none⟩

/-- `CardInstance.clear_turn_modifiers`. -/
def Card.clearTurnModifiers (c : Card) : Card :=
  { c with costThisTurn := none }

/-- `EnergySystem` from src/combat/energy_system.py. -/
structure EnergyState where
  currentEnergy : Nat
  maxEnergy : Nat
  bonusNextTurn : Nat
deriving DecidableEq

/-- `EnergySystem.start_turn`. -/
def EnergyState.startTurn (e : EnergyState) : EnergyState :=
  { e with currentEnergy := e.maxEnergy + e.bonusNextTurn, bonusNextTurn := 0 }

/-- `EnergySystem.spend` (negative amounts cannot arise for a `Nat`
amount; the insufficient-energy branch leaves the state unchanged). -/
def EnergyState.spend (e : EnergyState) (amount : Nat) : EnergyState × Bool :=
  if amount ≤ e.currentEnergy then
    ({ e with currentEnergy := e.currentEnergy - amount }, true)
  else (e, false)

/-- `EnergySystem.gain`. -/
def EnergyState.gain (e : EnergyState) (amount : Nat) : EnergyState :=
  { e with currentEnergy := e.currentEnergy + amount }

/-- `Player` from src/entities/player.py, restricted to the fields the
combat operations touch (name, gold, relics and potions are never read or
written by the modelled operations). -/
structure PlayerS where
  maxHp : Nat
  currentHp : Nat
  maxEnergy : Nat
  energy : Nat
  block : Nat
  masterDeck : List Card
  status : StatusMap
  cardsPlayedThisTurn : Nat
  cardsPlayedThisCombat : Nat
  damageTakenThisCombat : Nat
deriving DecidableEq

/-- `Player.is_alive`. -/
def PlayerS.isAlive (p : PlayerS) : Bool :=
  p.currentHp > 0

/-- `Player.take_damage`.  The code mutates block, HP and the damage
counter and then, when any HP was lost, evaluates
`GameEvent.hp_lost(self, remaining, self._deck_manager)` — three arguments
to a classmethod whose signature is `hp_lost(cls, entity, amount)`
(src/core/events.py lines 110-112), which raises `TypeError` before
`emit` is reached.  The raise is modelled as the `some`-error component;
the state mutated before the raise is kept. -/
def PlayerS.takeDamage (p : PlayerS) (amount : Nat) (piercing : Bool) :
    PlayerS × Nat × Option String :=
  if amount = 0 then (p, 0, none)
  else
    let blocked := if piercing then 0 else min p.block amount
    let newBlock := if piercing then p.block else p.block - blocked
    let remaining := amount - blocked
    let p' := { p with
      block := newBlock
      currentHp := p.currentHp - remaining
      damageTakenThisCombat := p.damageTakenThisCombat + remaining }
    if remaining > 0 then
      (p', remaining,
        some "TypeError: hp_lost() takes 3 positional arguments but 4 were given")
    else (p', remaining, none)

/-- `Player.heal`. -/
def PlayerS.heal (p : PlayerS) (amount : Nat) : PlayerS × Nat :=
  let newHp := min p.maxHp (p.currentHp + amount)
  ({ p with currentHp := newHp }, newHp - p.currentHp)

/-- `Player.start_combat` (called by `CombatManager.start_combat` with no
`deck_manager` argument, so `_deck_manager` stays `None`). -/
def PlayerS.startCombatReset (p : PlayerS) : PlayerS :=
  { p with
    block := 0
    status := StatusMap.empty
    cardsPlayedThisCombat := 0
    damageTakenThisCombat := 0 }

/-- `Intent` from src/entities/enemy.py (`buff_amount` and `debuff_amount`
are never read by `execute_intent` and are omitted). -/
structure Intent where
  intentKind : IntentKind
  damage : Option Nat
  times : Nat
  blockAmt : Option Nat
deriving DecidableEq, Inhabited

/-- `Enemy` from src/entities/enemy.py, restricted to the fields the
combat operations touch. -/
structure EnemyS where
  maxHp : Nat
  currentHp : Nat
  block : Nat
  status : StatusMap
  intent : Intent
  turnCount : Nat
  moveHistory : List IntentKind
deriving DecidableEq

/-- `Enemy.is_alive`. -/
def EnemyS.isAlive (e : EnemyS) : Bool :=
  e.currentHp > 0

/-- `Enemy.gain_block` (a `Nat` amount cannot be negative; adding 0 and the
guarded early return coincide). -/
def EnemyS.gainBlock (e : EnemyS) (amount : Nat) : EnemyS :=
  { e with block := e.block + amount }

/-- `Enemy.start_turn`. -/
def EnemyS.startTurn (e : EnemyS) : EnemyS :=
  { e with block := 0 }

/-- `Enemy.end_turn`: decrement Vulnerable and Weak (removing at <= 0),
then poison damage (piercing) and poison decrement. -/
def EnemyS.endTurn (e₀ : EnemyS) : EnemyS :=
  let e₁ : EnemyS := { e₀ with status := e₀.status.decrementAndPrune .vulnerable }
  let e : EnemyS := { e₁ with status := e₁.status.decrementAndPrune .weak }
  let poisonStacks := e.status.get .poison
  if poisonStacks > 0 then
    { e with
      currentHp := e.currentHp - poisonStacks
      status := e.status.set .poison (poisonStacks - 1) }
  else e

/-- The repeated-hit loop inside `Enemy.execute_intent`
(`for _ in range(self.intent.times): hp_lost = player.take_damage(damage)`).
Returns the player, the accumulated `total_damage`, and the uncaught
exception, if any. -/
def enemyHitLoop : Nat → Nat → PlayerS → PlayerS × Nat × Option String
  | 0, _, p => (p, 0, none)
  | n + 1, dmg, p =>
    match p.takeDamage dmg false with
    | (p', _, some err) => (p', 0, some err)
    | (p', hpLost, none) =>
      match enemyHitLoop n dmg p' with
      | (p'', total, err) => (p'', hpLost + total, err)

/-- `Enemy.execute_intent`: damage intents add the enemy's Strength, then
apply the enemy's own Weak (x 0.75, truncated), then the player's
Vulnerable (x 1.5, truncated) — note the reverse order compared with the
player-attack `DamageEffect` — then repeat `times` hits against the
player; then the intent's block is gained and the move history and turn
counter updated.  An exception raised inside `take_damage` skips the
block gain and counter updates. -/
def EnemyS.executeIntent (e : EnemyS) (p : PlayerS) :
    EnemyS × PlayerS × Option String :=
  let damageStep : PlayerS × Option String :=
    match e.intent.damage with
    | none => (p, none)
    | some d =>
      let dmg := d + e.status.get .strength
      let dmg := if e.status.get .weak > 0 then 3 * dmg / 4 else dmg
      let dmg := if p.status.get .vulnerable > 0 then 3 * dmg / 2 else dmg
      match enemyHitLoop e.intent.times dmg p with
      | (p', _, err) => (p', err)
  match damageStep with
  | (p', some err) => (e, p', some err)
  | (p', none) =>
    let e :=
      match e.intent.blockAmt with
      | some b => e.gainBlock b
      | none => e
    ({ e with
        moveHistory := e.moveHistory ++ [e.intent.intentKind]
        turnCount := e.turnCount + 1 },
      p', none)

/-- `process_end_of_turn_effects` from src/combat/status_effects.py,
applied to the player (the combat manager only calls it on the player):
Metallicize block, Regen heal and decrement, Plated Armor block, then
decrement Vulnerable, Weak, Frail and Intangible. -/
def processEndOfTurnPlayer (p₀ : PlayerS) : PlayerS :=
  let metallicizeStacks := p₀.status.get .metallicize
  let p₁ :=
    if metallicizeStacks > 0 then
      { p₀ with block := p₀.block + metallicizeStacks }
    else p₀
  let regenStacks := p₁.status.get .regen
  let p₂ :=
    if regenStacks > 0 then
      let healed := min regenStacks (p₁.maxHp - p₁.currentHp)
      { p₁ with
        currentHp := p₁.currentHp + healed
        status := p₁.status.set .regen (regenStacks - 1) }
    else p₁
  let platedStacks := p₂.status.get .platedArmor
  let p₃ :=
    if platedStacks > 0 then
      { p₂ with block := p₂.block + platedStacks }
    else p₂
  let p₄ := { p₃ with status := p₃.status.decrementAndPrune .vulnerable }
  let p₅ := { p₄ with status := p₄.status.decrementAndPrune .weak }
  let p₆ := { p₅ with status := p₅.status.decrementAndPrune .frail }
  { p₆ with status := p₆.status.decrementAndPrune .intangible }

/-- `DeckManager` from src/deck/deck_manager.py: the four combat piles.
The "top" of the draw pile is the end of the list, matching `list.pop()`. -/
structure DeckState where
  drawPile : List Card
  hand : List Card
  discardPile : List Card
  exhaustPile : List Card
  maxHandSize : Nat
deriving DecidableEq

/-- Total number of card instances across the four piles. -/
def DeckState.totalCards (d : DeckState) : Nat :=
  d.drawPile.length + d.hand.length + d.discardPile.length +
    d.exhaustPile.length

/-- `DeckManager.initialize_from_deck`: copy every master-deck instance
into the draw pile, clear the other piles, shuffle (`sigma` stands for the
`random.shuffle` permutation). -/
def DeckState.initializeFromDeck (sigma : List Card → List Card)
    (masterDeck : List Card) : DeckState :=
  { drawPile := sigma (masterDeck.map Card.copy)
    hand := []
    discardPile := []
    exhaustPile := []
    maxHandSize := 10 }

/-- `DeckManager.reshuffle_discard_into_draw`. -/
def DeckState.reshuffleDiscardIntoDraw (sigma : List Card → List Card)
    (d : DeckState) : DeckState :=
  { d with
    drawPile := sigma (d.drawPile ++ d.discardPile)
    discardPile := [] }

/-- The reshuffle-if-needed step at the top of the `DeckManager.draw`
loop body: an empty draw pile is refilled from a non-empty discard pile. -/
def DeckState.refillIfNeeded (sigma : List Card → List Card)
    (d : DeckState) : DeckState :=
  if d.drawPile.isEmpty then
    if d.discardPile.isEmpty then d
    else d.reshuffleDiscardIntoDraw sigma
  else d

/-- One pass of the loop body of `DeckManager.draw`: stop when the hand is
full, reshuffle the discard pile into the empty draw pile (stopping when
both are empty), then pop the top draw-pile card into the hand. -/
def DeckState.drawLoop (sigma : List Card → List Card) :
    Nat → DeckState → DeckState × List Card
  | 0, d => (d, [])
  | n + 1, d =>
    if d.hand.length ≥ d.maxHandSize then (d, [])
    else
      let d1 := DeckState.refillIfNeeded sigma d
      match d1.drawPile.getLast? with
      | none => (d1, [])
      | some card =>
        let d2 := { d1 with
          drawPile := d1.drawPile.dropLast
          hand := d1.hand ++ [card] }
        match DeckState.drawLoop sigma n d2 with
        | (d', drawn) => (d', card :: drawn)

/-- `DeckManager.draw`. -/
def DeckState.draw (sigma : List Card → List Card) (d : DeckState)
    (count : Nat) : DeckState × List Card :=
  DeckState.drawLoop sigma count d

/-- The hand classification loop of `DeckManager.end_turn`: ethereal cards
go to the exhaust pile, retained cards stay, the rest are discarded.
Returns (exhausted, retained, discarded) in hand order. -/
def classifyHand : List Card → List Card × List Card × List Card
  | [] => ([], [], [])
  | c :: cs =>
    let (ex, re, di) := classifyHand cs
    if c.data.ethereal then (c :: ex, re, di)
    else if c.data.retain then (ex, c :: re, di)
    else (ex, re, c :: di)

/-- `DeckManager.clear_turn_modifiers`: clears the per-turn cost override
of every card in `self.hand + self.draw_pile + self.discard_pile` — the
exhaust pile is not visited. -/
def DeckState.clearTurnModifiers (d : DeckState) : DeckState :=
  { d with
    hand := d.hand.map Card.clearTurnModifiers
    drawPile := d.drawPile.map Card.clearTurnModifiers
    discardPile := d.discardPile.map Card.clearTurnModifiers }

/-- `DeckManager.end_turn`: route each hand card (ethereal to exhaust,
retain stays, otherwise discard), then clear turn modifiers.  Returns the
discarded cards. -/
def DeckState.endTurn (d : DeckState) : DeckState × List Card :=
  let (ex, re, di) := classifyHand d.hand
  let d := { d with
    hand := re
    exhaustPile := d.exhaustPile ++ ex
    discardPile := d.discardPile ++ di }
  (d.clearTurnModifiers, di)

/-- `DeckManager.exhaust_card`: move a card from hand to the exhaust pile
if present (first structurally-equal occurrence, matching `list.remove`). -/
def DeckState.exhaustCard (d : DeckState) (c : Card) : DeckState × Bool :=
  if c ∈ d.hand then
    ({ d with hand := d.hand.erase c, exhaustPile := d.exhaustPile ++ [c] },
      true)
  else (d, false)

/-- `DeckManager.exhaust_from_discard`. -/
def DeckState.exhaustFromDiscard (d : DeckState) (c : Card) :
    DeckState × Bool :=
  if c ∈ d.discardPile then
    ({ d with
        discardPile := d.discardPile.erase c
        exhaustPile := d.exhaustPile ++ [c] },
      true)
  else (d, false)

/-- `DeckManager.exhaust_from_draw`. -/
def DeckState.exhaustFromDraw (d : DeckState) (c : Card) :
    DeckState × Bool :=
  if c ∈ d.drawPile then
    ({ d with
        drawPile := d.drawPile.erase c
        exhaustPile := d.exhaustPile ++ [c] },
      true)
  else (d, false)

/-- `CombatState` from src/combat/combat_manager.py. -/
structure CombatStateS where
  player : PlayerS
  enemies : List EnemyS
  deck : DeckState
  energy : EnergyState
  turnNumber : Nat
  phase : Phase
  result : ResultKind
deriving DecidableEq

/-- `CombatState.get_living_enemies`, as the list of indices of the living
enemies (entity object references are modelled by position in the enemy
list). -/
def livingIndices (es : List EnemyS) : List Nat :=
  (es.enum.filter (fun p => p.2.isAlive)).map (fun p => p.1)

/-- The `source`/`target` argument of `Effect.apply` as resolved by
`CombatManager.play_card`: `None`, one enemy, a list of enemies, or the
player. -/
inductive EffTarget
  | noneT
  | enemyIdx (i : Nat)
  | enemyIdxList (is : List Nat)
  | playerT
deriving DecidableEq

/-- One per-iteration entry of the `targets` list inside
`DamageEffect.apply` / `ApplyStatusEffect.apply`
(`targets = [target] if not isinstance(target, list) else target`). -/
inductive TgtRef
  | noneRef
  | enemyRef (i : Nat)
  | playerRef
deriving DecidableEq

/-- The `targets` list built from the effect target. -/
def resolvedTargets : EffTarget → List TgtRef
  | .noneT => [.noneRef]
  | .enemyIdx i => [.enemyRef i]
  | .enemyIdxList is => is.map TgtRef.enemyRef
  | .playerT => [.playerRef]

/-- The two truncating multipliers of `DamageEffect.apply`, in the order
the code applies them to a player attack: Vulnerable on the target first
(`int(x * 1.5)`), then Weak on the source (`int(x * 0.75)`). -/
def cardHitAmount (dmg : Nat) (tgtVulnerable srcWeak : Bool) : Nat :=
  let a := if tgtVulnerable then 3 * dmg / 2 else dmg
  if srcWeak then 3 * a / 4 else a

/-- Block absorption then HP loss for one hit on an enemy, mirroring the
direct `t.block` / `t.current_hp` mutation inside `DamageEffect.apply`. -/
def damageHitEnemy (amt : Nat) (e : EnemyS) : EnemyS :=
  let blocked := min e.block amt
  { e with
    block := e.block - blocked
    currentHp := e.currentHp - (amt - blocked) }

/-- The same single hit applied to the player (no event is emitted and the
damage-taken counter is not updated on this code path). -/
def damageHitPlayer (amt : Nat) (p : PlayerS) : PlayerS :=
  let blocked := min p.block amt
  { p with
    block := p.block - blocked
    currentHp := p.currentHp - (amt - blocked) }

/-- One entry of the inner target loop of `DamageEffect.apply` with the
player as source: `None` entries are skipped, otherwise the strength-added
base is adjusted by the target Vulnerable and source Weak multipliers and
absorbed by block before HP. -/
def damageOneTarget (dmg : Nat) (s : CombatStateS) (t : TgtRef) :
    CombatStateS :=
  match t with
  | .noneRef => s
  | .enemyRef i =>
    match s.enemies[i]? with
    | none => s
    | some e =>
      let amt := cardHitAmount dmg (e.status.get .vulnerable > 0)
        (s.player.status.get .weak > 0)
      { s with enemies := s.enemies.set i (damageHitEnemy amt e) }
  | .playerRef =>
    let amt := cardHitAmount dmg (s.player.status.get .vulnerable > 0)
      (s.player.status.get .weak > 0)
    { s with player := damageHitPlayer amt s.player }

/-- The outer `for _ in range(self.times)` loop of `DamageEffect.apply`. -/
def damageRepeat (dmg : Nat) (tgts : List TgtRef) :
    Nat → CombatStateS → CombatStateS
  | 0, s => s
  | n + 1, s => damageRepeat dmg tgts n (tgts.foldl (damageOneTarget dmg) s)

/-- `DamageEffect.apply` with the player as source: strength is added to
the base once, before the repetition loop. -/
def applyDamageEffect (s : CombatStateS) (base times : Nat)
    (tgt : EffTarget) : CombatStateS :=
  let dmg := base + s.player.status.get .strength
  damageRepeat dmg (resolvedTargets tgt) times s

/-- `ApplyStatusEffect._is_debuff`. -/
def isDebuffStatus (st : StatusType) : Bool :=
  match st with
  | .vulnerable => true
  | .weak => true
  | .frail => true
  | .poison => true
  | _ => false

/-- The artifact-or-apply branch of `ApplyStatusEffect.apply` for one
entity. -/
def applyStatusToMap (st : StatusType) (amount : Nat) (m : StatusMap) :
    StatusMap :=
  if isDebuffStatus st ∧ m.get .artifact > 0 then
    m.set .artifact (m.get .artifact - 1)
  else
    m.set st (m.get st + amount)

/-- One entry of the target loop of `ApplyStatusEffect.apply`. -/
def statusOneTarget (st : StatusType) (amount : Nat) (s : CombatStateS)
    (t : TgtRef) : CombatStateS :=
  match t with
  | .noneRef => s
  | .enemyRef i =>
    match s.enemies[i]? with
    | none => s
    | some e =>
      { s with
        enemies := s.enemies.set i
          { e with status := applyStatusToMap st amount e.status } }
  | .playerRef =>
    { s with player :=
        { s.player with status := applyStatusToMap st amount s.player.status } }

/-- `Effect.apply` for the closed set of instantiated effect kinds, with
the player as source (the only source `CombatManager.play_card` passes).
`BlockEffect` and `HealEffect` fall back to the source for a `None` or
list target; `GainEnergyEffect` adds to `Player.energy` (the mirror field
on the `Player` object), not to `EnergySystem.current_energy`;
`ExhaustEffect` only reports and changes nothing. -/
def applyEffect (sigma : List Card → List Card) (s : CombatStateS)
    (eff : Eff) (tgt : EffTarget) : CombatStateS :=
  match eff with
  | .damage base times => applyDamageEffect s base times tgt
  | .blockGain base =>
    let amt := base + s.player.status.get .dexterity
    let amt := if s.player.status.get .frail > 0 then 3 * amt / 4 else amt
    match tgt with
    | .enemyIdx i =>
      match s.enemies[i]? with
      | none => s
      | some e => { s with enemies := s.enemies.set i { e with block := e.block + amt } }
    | _ => { s with player := { s.player with block := s.player.block + amt } }
  | .drawCards n =>
    { s with deck := (s.deck.draw sigma n).1 }
  | .applyStatus st amount =>
    (resolvedTargets tgt).foldl (statusOneTarget st amount) s
  | .gainEnergy amount =>
    { s with player := { s.player with energy := s.player.energy + amount } }
  | .healHp amount =>
    match tgt with
    | .enemyIdx i =>
      match s.enemies[i]? with
      | none => s
      | some e =>
        let e' := { e with currentHp := min e.maxHp (e.currentHp + amount) }
        { s with enemies := s.enemies.set i e' }
    | _ => { s with player := (s.player.heal amount).1 }
  | .exhaustChoice _ _ => s

/-- `CombatManager._check_combat_end`: victory when no living enemy
remains, defeat when the player is dead (the COMBAT_END emission touches
no combat state: nothing in src subscribes to the bus). -/
def checkCombatEnd (s : CombatStateS) : CombatStateS :=
  if livingIndices s.enemies = [] then
    { s with result := .victory, phase := .combatEnd }
  else if ¬ s.player.isAlive then
    { s with result := .defeat, phase := .combatEnd }
  else s

/-- The parameters the combat manager takes from the outside world:
the `random.shuffle` permutation and the enemy AI functions
(`ai_function(enemy, combat_state) -> Intent`, with the built-in
alternating default as one possible instance). -/
structure Env where
  shuffle : List Card → List Card
  ai : EnemyS → CombatStateS → Intent

/-- `PlayResult` is the `success`/`reason` part of the structured dicts
returned by `play_card` and `end_player_turn`. -/
structure PlayResult where
  success : Bool
  reason : String
deriving DecidableEq

/-- `CombatManager` runtime fields: the optional combat state and the
`draw_count` stored by `start_combat`. -/
structure MgrState where
  state : Option CombatStateS
  drawCount : Nat
deriving DecidableEq

/-- `CombatManager.can_play_card`, with the checks in source order. -/
def canPlayCard (st : Option CombatStateS) (card : Card)
    (target : Option Nat) : Bool × String :=
  match st with
  | none => (false, "No active combat")
  | some s =>
    if s.phase ≠ Phase.playerTurn then (false, "Not player\x27s turn")
    else if card ∉ s.deck.hand then (false, "Card not in hand")
    else if card.data.unplayable then (false, "Card is unplayable")
    else if s.energy.currentEnergy < card.cost then
      (false, "Not enough energy")
    else if card.data.targetKind = TargetKind.singleEnemy then
      match target with
      | none => (false, "Must select a target")
      | some i =>
        if i ∈ livingIndices s.enemies then (true, "")
        else (false, "Invalid target")
    else (true, "")

/-- The effect-target resolution step of `CombatManager.play_card`
(`SINGLE_ENEMY` passes the target through, `ALL_ENEMIES` resolves to the
living enemies, `SELF` to the player, anything else stays `None`). -/
def resolveEffTarget (s : CombatStateS) (card : Card)
    (target : Option Nat) : EffTarget :=
  if card.data.targetKind = TargetKind.singleEnemy then
    match target with
    | some i => .enemyIdx i
    | none => .noneT
  else if card.data.targetKind = TargetKind.allEnemies then
    .enemyIdxList (livingIndices s.enemies)
  else if card.data.targetKind = TargetKind.selfTarget then
    .playerT
  else .noneT

/-- `play_card` step: spend the effective cost and mirror the new current
energy into `player.energy`. -/
def spendEnergyStage (s : CombatStateS) (card : Card) : CombatStateS :=
  let en := (s.energy.spend card.cost).1
  { s with
    energy := en
    player := { s.player with energy := en.currentEnergy } }

/-- `play_card` step: `self.state.hand.remove(card)` (first
structurally-equal occurrence). -/
def removeFromHandStage (s : CombatStateS) (card : Card) : CombatStateS :=
  { s with deck := { s.deck with hand := s.deck.hand.erase card } }

/-- `play_card` step: apply each card effect in template order against
the resolved target. -/
def applyEffectsStage (sigma : List Card → List Card) (s : CombatStateS)
    (effs : List Eff) (tgt : EffTarget) : CombatStateS :=
  effs.foldl (fun acc eff => applyEffect sigma acc eff tgt) s

/-- `play_card` step: route the played card to the exhaust pile when its
exhaust flag is set, else to the discard pile. -/
def routeCardStage (s : CombatStateS) (card : Card) : CombatStateS :=
  if card.data.exhaust then
    { s with deck :=
        { s.deck with exhaustPile := s.deck.exhaustPile ++ [card] } }
  else
    { s with deck :=
        { s.deck with discardPile := s.deck.discardPile ++ [card] } }

/-- `play_card` step: bump the per-turn and per-combat play counters. -/
def bumpCountersStage (s : CombatStateS) : CombatStateS :=
  { s with player := { s.player with
    cardsPlayedThisTurn := s.player.cardsPlayedThisTurn + 1
    cardsPlayedThisCombat := s.player.cardsPlayedThisCombat + 1 } }

/-- The success branch of `CombatManager.play_card`: spend energy, remove
the card from hand, resolve the effect target, apply the effects in
order, route the card to the exhaust or discard pile, bump the play
counters, and run the combat-end check (the enemy-death check only emits
events). -/
def playCardResolved (env : Env) (s : CombatStateS) (card : Card)
    (target : Option Nat) : CombatStateS :=
  let s1 := spendEnergyStage s card
  let s2 := removeFromHandStage s1 card
  let effTgt := resolveEffTarget s2 card target
  let s3 := applyEffectsStage env.shuffle s2 card.effects effTgt
  let s4 := routeCardStage s3 card
  let s5 := bumpCountersStage s4
  checkCombatEnd s5

/-- `CombatManager.play_card`: re-validate, then run the success branch. -/
def playCard (env : Env) (ms : MgrState) (card : Card)
    (target : Option Nat) : MgrState × PlayResult :=
  match ms.state with
  | none => (ms, ⟨false, "No active combat"⟩)
  | some s =>
    match canPlayCard (some s) card target with
    | (false, reason) => (ms, ⟨false, reason⟩)
    | (true, _) =>
      ({ ms with state := some (playCardResolved env s card target) },
        ⟨true, ""⟩)

/-- The `for enemy in ...: enemy.choose_intent(self.state)` loops: each
enemy's intent is replaced by what its AI returns on the state as mutated
so far. -/
def chooseIntents (env : Env) : List Nat → CombatStateS → CombatStateS
  | [], s => s
  | i :: rest, s =>
    match s.enemies[i]? with
    | none => chooseIntents env rest s
    | some e =>
      chooseIntents env rest
        { s with enemies := s.enemies.set i { e with intent := env.ai e s } }

/-- `CombatManager._start_player_turn`: bump the turn counter, enter the
player phase, reset player block, refresh energy and mirror it into
`player.energy`, draw `draw_count` cards, and reset the per-turn play
counter. -/
def startPlayerTurn (env : Env) (drawCount : Nat) (s : CombatStateS) :
    CombatStateS :=
  let s := { s with turnNumber := s.turnNumber + 1, phase := Phase.playerTurn }
  let s := { s with player := { s.player with block := 0 } }
  let en := s.energy.startTurn
  let s := { s with
    energy := en
    player := { s.player with energy := en.currentEnergy } }
  let s := { s with deck := (s.deck.draw env.shuffle drawCount).1 }
  { s with player := { s.player with cardsPlayedThisTurn := 0 } }

/-- The per-enemy body of `CombatManager._execute_enemy_turn`, iterating
over the snapshot of living enemies: reset the enemy's block, execute its
intent, then either propagate an uncaught exception (keeping all mutations
made so far and skipping every later step), or — if the player has died —
set Defeat and CombatEnd and return without touching the remaining
enemies, or run the enemy's own end-of-turn and continue. -/
def enemyTurnLoop (s : CombatStateS) :
    List Nat → CombatStateS × Option String
  | [] => (s, none)
  | i :: rest =>
    match s.enemies[i]? with
    | none => enemyTurnLoop s rest
    | some e =>
      let e := e.startTurn
      match e.executeIntent s.player with
      | (e', p', err) =>
        let s' := { s with player := p', enemies := s.enemies.set i e' }
        match err with
        | some msg => (s', some msg)
        | none =>
          if ¬ s'.player.isAlive then
            ({ s' with result := ResultKind.defeat, phase := Phase.combatEnd },
              none)
          else
            let s'' :=
              { s' with enemies := s'.enemies.set i e'.endTurn }
            enemyTurnLoop s'' rest

/-- `CombatManager._execute_enemy_turn`: enter the enemy phase, run every
living enemy in list order (with the early stop on player death or
uncaught exception), then re-check combat end and, if still in progress,
pick new intents for the living enemies and start the next player turn. -/
def executeEnemyTurn (env : Env) (drawCount : Nat) (s : CombatStateS) :
    CombatStateS × Option String :=
  let s := { s with phase := Phase.enemyTurn }
  match enemyTurnLoop s (livingIndices s.enemies) with
  | (s', some msg) => (s', some msg)
  | (s', none) =>
    if s'.phase = Phase.combatEnd ∧ s'.result = ResultKind.defeat then
      (s', none)
    else
      let s'' := checkCombatEnd s'
      if s''.result = ResultKind.inProgress then
        let s''' := chooseIntents env (livingIndices s''.enemies) s''
        (startPlayerTurn env drawCount s''', none)
      else (s'', none)

/-- `CombatManager.end_player_turn`: structured failure when there is no
state or the phase is not the player turn; otherwise emit TURN_END, run
the deck end-of-turn, the player's end-of-turn status effects, the (pure)
energy end-turn bookkeeping, and the enemy turn.  The third component is
the uncaught exception propagating out of the call, if any. -/
def endPlayerTurn (env : Env) (ms : MgrState) :
    MgrState × PlayResult × Option String :=
  match ms.state with
  | none => (ms, ⟨false, "No active combat"⟩, none)
  | some s =>
    if s.phase ≠ Phase.playerTurn then
      (ms, ⟨false, "Not player\x27s turn"⟩, none)
    else
      let s := { s with deck := (s.deck.endTurn).1 }
      let s := { s with player := processEndOfTurnPlayer s.player }
      match executeEnemyTurn env ms.drawCount s with
      | (s', err) => ({ ms with state := some s' }, ⟨true, ""⟩, err)

/-- `CombatManager.start_combat`: build the state, reset the player,
project the master deck into the draw pile, initialize energy from the
player's max energy, emit COMBAT_START (see `GameEventM.combatStart`),
give every enemy an initial intent, and run the first player-turn setup. -/
def startCombat (env : Env) (p : PlayerS) (es : List EnemyS)
    (drawCount : Nat) : MgrState :=
  let p' := p.startCombatReset
  let s : CombatStateS :=
    { player := p'
      enemies := es
      deck := DeckState.initializeFromDeck env.shuffle p'.masterDeck
      energy :=
        { currentEnergy := p'.maxEnergy
          maxEnergy := p'.maxEnergy
          bonusNextTurn := 0 }
      turnNumber := 0
      phase := Phase.notStarted
      result := ResultKind.inProgress }
  let s := chooseIntents env (List.range es.length) s
  let s := startPlayerTurn env drawCount s
  { state := some s, drawCount := drawCount }

/-- The mid-combat operations quantified over by the pile-conservation
property: deck draws, card plays, turn ends, and the three exhaust
moves (the explicit add-card operations are excluded). -/
inductive CombatOp
  | drawOp (n : Nat)
  | playCardOp (c : Card) (target : Option Nat)
  | endPlayerTurnOp
  | exhaustOp (c : Card)
  | exhaustFromDiscardOp (c : Card)
  | exhaustFromDrawOp (c : Card)

/-- Run one operation against the manager state (results are dropped; a
propagating exception still leaves the Python objects in their mutated
state, which the model keeps). -/
def stepOp (env : Env) (ms : MgrState) : CombatOp → MgrState
  | .drawOp n =>
    match ms.state with
    | none => ms
    | some s =>
      { ms with state := some { s with deck := (s.deck.draw env.shuffle n).1 } }
  | .playCardOp c target => (playCard env ms c target).1
  | .endPlayerTurnOp => (endPlayerTurn env ms).1
  | .exhaustOp c =>
    match ms.state with
    | none => ms
    | some s =>
      { ms with state := some { s with deck := (s.deck.exhaustCard c).1 } }
  | .exhaustFromDiscardOp c =>
    match ms.state with
    | none => ms
    | some s =>
      { ms with state := some { s with deck := (s.deck.exhaustFromDiscard c).1 } }
  | .exhaustFromDrawOp c =>
    match ms.state with
    | none => ms
    | some s =>
      { ms with state := some { s with deck := (s.deck.exhaustFromDraw c).1 } }

/-- A whole sequence of mid-combat operations. -/
def applyOps (env : Env) (ms : MgrState) (ops : List CombatOp) : MgrState :=
  ops.foldl (stepOp env) ms

/-- Total card-instance count of the combat's four piles (0 when no
combat is active). -/
def MgrState.totalCards (ms : MgrState) : Nat :=
  match ms.state with
  | none => 0
  | some s => s.deck.totalCards

/-- `EventType` from src/core/events.py. -/
inductive EventKindM
  | combatStart
  | combatEnd
  | turnStart
  | turnEnd
  | enemyTurnStart
  | enemyTurnEnd
  | cardDrawn
  | cardPlayed
  | cardExhausted
  | cardDiscarded
  | damageDealt
  | damageTaken
  | blockGained
  | blockLost
  | hpLost
  | hpGained
  | enemyDied
  | statusApplied
  | statusRemoved
  | energyGained
  | energySpent
  | shuffleEvt
  | roomEntered
  | restSiteUsed
  | relicObtained
  | goldGained
  | goldSpent
deriving DecidableEq

/-- The generic key-value `data` bag of `GameEvent`, as one optional slot
per key the source ever stores or reads (`None` = key absent). -/
structure EventPayload where
  playerKey : Option PlayerS
  enemiesKey : Option (List EnemyS)
  victoryKey : Option Bool
  deckManagerKey : Option DeckState
  turnNumberKey : Option Nat
  amountKey : Option Nat
deriving DecidableEq

/-- The empty data bag. -/
def EventPayload.empty : EventPayload :=
  ⟨none, none, none, none, none, none⟩

/-- `GameEvent` from src/core/events.py. -/
structure GameEventM where
  kind : EventKindM
  data : EventPayload
deriving DecidableEq

/-- `GameEvent.combat_start(player, enemies)` — the event
`CombatManager.start_combat` emits: its data dict is
`{"player": player, "enemies": enemies}` and stores no other key. -/
def GameEventM.combatStart (p : PlayerS) (es : List EnemyS) : GameEventM :=
  ⟨EventKindM.combatStart,
    { EventPayload.empty with playerKey := some p, enemiesKey := some es }⟩

/-- `_ring_of_snake_effect` from src/data/relics/common_relics.py: read
`event.data.get("deck_manager")` and, only when it is present, draw 2
cards on it.  Returns the drawn-upon deck manager, or `none` when the key
was absent and no draw happened. -/
def ringOfSnakeEffect (sigma : List Card → List Card) (ev : GameEventM) :
    Option DeckState :=
  match ev.data.deckManagerKey with
  | none => none
  | some dm => some (dm.draw sigma 2).1

/-- `EventBus` from src/core/events.py.  A Python handler function is
identified by a `Nat` (function objects compare by identity, so two
subscriptions of one function carry equal handler values).  `_handlers`
is the per-event-kind list of `(priority, handler)` pairs, `_handlerIds`
the id-to-registration dict, `_next_id` the id counter. -/
structure BusState where
  handlers : EventKindM → List (Int × Nat)
  handlerIds : List (Nat × EventKindM × Nat)
  nextId : Nat

/-- The fresh bus (`EventBus.__init__` / after `clear`). -/
def BusState.empty : BusState :=
  ⟨fun _ => [], [], 0⟩

/-- Insert an entry after every entry of priority >= its own.  On a list
that is already sorted in descending priority this is exactly what the
stable `sort(key=lambda x: -x[0])` of the appended list produces, and the
handler list is re-sorted this way on every subscribe. -/
def insertByPriorityDesc (x : Int × Nat) :
    List (Int × Nat) → List (Int × Nat)
  | [] => [x]
  | y :: ys =>
    if x.1 ≤ y.1 then y :: insertByPriorityDesc x ys
    else x :: y :: ys

/-- Stable descending-priority sort (insertion sort, keeping the original
order of equal priorities), modelling `list.sort(key=lambda x: -x[0])`. -/
def stableSortDesc (l : List (Int × Nat)) : List (Int × Nat) :=
  l.foldl (fun acc x => insertByPriorityDesc x acc) []

/-- `EventBus.subscribe`: append the registration, stably re-sort that
event kind's list by descending priority, record the id, and return it. -/
def BusState.subscribe (b : BusState) (et : EventKindM) (h : Nat)
    (priority : Int) : BusState × Nat :=
  let handlerId := b.nextId
  (⟨fun et' =>
      if et' = et then stableSortDesc (b.handlers et ++ [(priority, h)])
      else b.handlers et',
    b.handlerIds ++ [(handlerId, et, h)],
    b.nextId + 1⟩,
    handlerId)

/-- `self._handler_ids[handler_id]` lookup. -/
def lookupHandlerId (l : List (Nat × EventKindM × Nat)) (handlerId : Nat) :
    Option (EventKindM × Nat) :=
  match l.find? (fun e => e.1 = handlerId) with
  | none => none
  | some e => some e.2

/-- `EventBus.unsubscribe`: unknown ids report `False`; otherwise the
event kind's list is rebuilt as
`[(p, h) for p, h in ... if h != handler]` — keeping only entries whose
handler function differs from the looked-up one — and the id is deleted. -/
def BusState.unsubscribe (b : BusState) (handlerId : Nat) :
    BusState × Bool :=
  match lookupHandlerId b.handlerIds handlerId with
  | none => (b, false)
  | some (et, h) =>
    (⟨fun et' =>
        if et' = et then (b.handlers et).filter (fun ph => ph.2 ≠ h)
        else b.handlers et',
      b.handlerIds.filter (fun e => e.1 ≠ handlerId),
      b.nextId⟩,
      true)

/-- The handler invocation order of `EventBus.emit` for an event of the
given kind (each listed handler is called once, in list order). -/
def BusState.emitOrder (b : BusState) (et : EventKindM) : List Nat :=
  (b.handlers et).map (fun ph => ph.2)

/-- Sum of the `GainEnergyEffect` amounts among a card's effects. -/
def gainEnergyAmt : Eff → Nat
  | .gainEnergy k => k
  | _ => 0

/-- Total energy gained by `GainEnergyEffect`s across an effect list. -/
def gainEnergyTotal (effs : List Eff) : Nat :=
  (effs.map gainEnergyAmt).sum

/-! ### Concrete fixtures -/

/-- Fixture player: 50/50 HP, no block, no statuses, empty master deck. -/
def pFix : PlayerS :=
  { maxHp := 50, currentHp := 50, maxEnergy := 3, energy := 3, block := 0
    masterDeck := [], status := StatusMap.empty, cardsPlayedThisTurn := 0
    cardsPlayedThisCombat := 0, damageTakenThisCombat := 0 }

/-- Fixture enemy: 30/30 HP, no block, no statuses. -/
def eFix : EnemyS :=
  { maxHp := 30, currentHp := 30, block := 0, status := StatusMap.empty
    intent := ⟨IntentKind.attack, some 10, 1, none⟩, turnCount := 0
    moveHistory := [] }

/-- Fixture empty pile set. -/
def deckFix : DeckState := ⟨[], [], [], [], 10⟩

/-- Fixture mid-player-turn combat state with one enemy. -/
def sFix : CombatStateS :=
  { player := pFix, enemies := [eFix], deck := deckFix
    energy := ⟨3, 3, 0⟩, turnNumber := 1, phase := Phase.playerTurn
    result := ResultKind.inProgress }

/-- Fixture player with Weak 1. -/
def pFixWeak : PlayerS :=
  { pFix with status := StatusMap.empty.set .weak 1 }

/-- Fixture enemy with Vulnerable 1 and block 3. -/
def eFixVuln : EnemyS :=
  { eFix with status := StatusMap.empty.set .vulnerable 1, block := 3 }

/-- Fixture combat state: Weak player attacking a Vulnerable enemy. -/
def sFixC2 : CombatStateS :=
  { sFix with player := pFixWeak, enemies := [eFixVuln] }

/-- Fixture enemy with Vulnerable 1 and no block. -/
def eFixCtr : EnemyS :=
  { eFix with status := StatusMap.empty.set .vulnerable 1 }

/-- Fixture combat state for the damage-order counterexample. -/
def sFixCtr : CombatStateS :=
  { sFix with player := pFixWeak, enemies := [eFixCtr] }

/-- Fixture card: the Strike template (single enemy, cost 1, deal 6). -/
def cardFix : Card :=
  ⟨⟨"strike", CardKind.attack, TargetKind.singleEnemy, 1, [Eff.damage 6 1],
    none, none, false, false, false, false, false⟩,
    false, 0, none, none⟩

/-- Fixture environment: identity shuffle, constant AI. -/
def envFix : Env :=
  ⟨id, fun _ _ => ⟨IntentKind.unknown, none, 1, none⟩⟩

/-- Fixture manager with no active combat. -/
def msNone : MgrState := ⟨none, 5⟩

/-- Fixture manager whose combat is in the enemy phase. -/
def msEnemyPhase : MgrState :=
  ⟨some { sFix with phase := Phase.enemyTurn }, 5⟩

/-- Fixture enemy whose intent is a lethal 100-damage attack. -/
def eLethal : EnemyS :=
  { eFix with intent := ⟨IntentKind.attack, some 100, 1, none⟩ }

/-- Fixture enemy queued behind the lethal attacker. -/
def eSecond : EnemyS :=
  { eFix with intent := ⟨IntentKind.attack, some 1, 1, none⟩ }

/-- Fixture low-HP player (5 HP, no block). -/
def pLow : PlayerS := { pFix with currentHp := 5 }

/-- Fixture combat: low-HP player versus a lethal attacker followed by a
second enemy. -/
def sLethal : CombatStateS :=
  { player := pLow, enemies := [eLethal, eSecond], deck := deckFix
    energy := ⟨3, 3, 0⟩, turnNumber := 1, phase := Phase.playerTurn
    result := ResultKind.inProgress }

/-- Fixture manager for the enemy-turn defeat scenario. -/
def msLethal : MgrState := ⟨some sLethal, 5⟩

/-- Fixture zero-cost card whose only effect is GainEnergy 2. -/
def cardGain : Card :=
  ⟨⟨"energy_surge", CardKind.skill, TargetKind.noTarget, 0,
    [Eff.gainEnergy 2], none, none, false, false, false, false, false⟩,
    false, 0, none, none⟩

/-- Fixture combat whose hand holds only the GainEnergy card. -/
def sGain : CombatStateS :=
  { sFix with deck := { deckFix with hand := [cardGain] } }

/-- Fixture manager for the GainEnergy scenario. -/
def msGain : MgrState := ⟨some sGain, 5⟩

/-- Fixture ethereal card carrying a this-turn cost override. -/
def cardEthereal : Card :=
  ⟨⟨"dark_shard", CardKind.statusCard, TargetKind.noTarget, 1, [],
    none, none, false, true, false, false, false⟩,
    false, 0, some 1, none⟩

/-- Fixture pile set whose hand holds only the ethereal override card. -/
def dEthereal : DeckState := ⟨[], [cardEthereal], [], [], 10⟩

/-- Fixture bus: one handler function (7) subscribed twice to HP_LOST
(ids 0 and 1). -/
def busDup : BusState :=
  (((BusState.empty.subscribe EventKindM.hpLost 7 0).1).subscribe
    EventKindM.hpLost 7 0).1

/-- Fixture bus: two distinct handler functions (7 with id 0, 9 with
id 1) subscribed to HP_LOST. -/
def busTwo : BusState :=
  (((BusState.empty.subscribe EventKindM.hpLost 7 0).1).subscribe
    EventKindM.hpLost 9 0).1

/-! ### Helper lemmas -/

lemma list_set_self {α : Type _} {l : List α} {i : Nat} {a : α}
    (h : l[i]? = some a) : l.set i a = l := by
  induction l generalizing i with
  | nil => simp at h
  | cons x xs ih =>
    cases i with
    | zero => simp_all
    | succ n =>
      simp only [List.getElem?_cons_succ] at h
      simp [ih h]

lemma lt_length_of_getElem? {α : Type _} {l : List α} {i : Nat} {a : α}
    (h : l[i]? = some a) : i < l.length := by
  by_contra hn
  rw [List.getElem?_eq_none (Nat.le_of_not_lt hn)] at h
  exact Option.noConfusion h

/-- `damageOneTarget` on a valid enemy reference updates exactly that
enemy with one block-absorbed hit. -/
lemma damageOneTarget_enemyRef {s : CombatStateS} {i : Nat} {e : EnemyS}
    (dmg : Nat) (h : s.enemies[i]? = some e) :
    damageOneTarget dmg s (TgtRef.enemyRef i) =
      { s with enemies := s.enemies.set i (damageHitEnemy
          (cardHitAmount dmg (e.status.get .vulnerable > 0)
            (s.player.status.get .weak > 0)) e) } := by
  simp [damageOneTarget, h]

/-- One more block-absorbed hit of amount `A` before `t` further hits
extends the closed form to `t + 1` hits. -/
lemma hitThenRepeat (A t B H : Nat) :
    (B - min B A) - t * A = B - (t + 1) * A ∧
    (H - (A - min B A)) - (t * A - (B - min B A)) = H - ((t + 1) * A - B) := by
  rw [Nat.succ_mul]
  generalize t * A = x
  omega

/-- Closed form for `times` repeated hits on one enemy target: the hit
amount is constant across repetitions (a hit changes only block and HP),
total block loss is capped at the starting block, and the overflow hits
HP. -/
lemma damageRepeat_enemyRef (dmg : Nat) :
    ∀ (t : Nat) (s : CombatStateS) (i : Nat) (e : EnemyS),
    s.enemies[i]? = some e →
    damageRepeat dmg [TgtRef.enemyRef i] t s =
      { s with
        enemies := s.enemies.set i
          { e with
            block := e.block - t * cardHitAmount dmg
              (e.status.get .vulnerable > 0) (s.player.status.get .weak > 0)
            currentHp := e.currentHp - (t * cardHitAmount dmg
              (e.status.get .vulnerable > 0) (s.player.status.get .weak > 0)
              - e.block) } }
  | 0, s, i, e, h => by
    simp only [damageRepeat, Nat.zero_mul, Nat.sub_zero, Nat.zero_sub]
    rw [list_set_self (a := e) h]
  | t + 1, s, i, e, h => by
    have hlt : i < s.enemies.length := lt_length_of_getElem? h
    have hget : (s.enemies.set i (damageHitEnemy (cardHitAmount dmg
        (e.status.get .vulnerable > 0) (s.player.status.get .weak > 0))
        e))[i]? =
        some (damageHitEnemy (cardHitAmount dmg
          (e.status.get .vulnerable > 0) (s.player.status.get .weak > 0))
          e) := by
      exact List.getElem?_set_self (by simpa using hlt)
    have ih := damageRepeat_enemyRef dmg t
      { s with enemies := s.enemies.set i (damageHitEnemy (cardHitAmount dmg
          (e.status.get .vulnerable > 0) (s.player.status.get .weak > 0)) e) }
      i
      (damageHitEnemy (cardHitAmount dmg (e.status.get .vulnerable > 0)
        (s.player.status.get .weak > 0)) e)
      hget
    simp only [damageRepeat, List.foldl_cons, List.foldl_nil]
    rw [damageOneTarget_enemyRef dmg h, ih]
    dsimp only [damageHitEnemy]
    simp only [List.set_set]
    congr 1
    congr 1
    simp only [EnemyS.mk.injEq, true_and, and_true]
    constructor
    · exact (hitThenRepeat (cardHitAmount dmg (e.status.get .vulnerable > 0)
        (s.player.status.get .weak > 0)) t e.block e.currentHp).2
    · exact (hitThenRepeat (cardHitAmount dmg (e.status.get .vulnerable > 0)
        (s.player.status.get .weak > 0)) t e.block e.currentHp).1

/-- A `None` entry in the resolved target list is skipped entirely. -/
lemma damageRepeat_noneRef (dmg : Nat) :
    ∀ (t : Nat) (s : CombatStateS),
    damageRepeat dmg [TgtRef.noneRef] t s = s
  | 0, _ => rfl
  | t + 1, s => by
    simp only [damageRepeat, List.foldl_cons, List.foldl_nil]
    exact damageRepeat_noneRef dmg t s

/-! ### C1 -/

/-- C1: a `DamageEffect` from a player card with base damage `D`,
repetition count `t` and source Strength `S` resolves, against a present
single enemy target, to `t` hits each of amount
`(D + S)`, multiplied by 1.5 and truncated when the target has Vulnerable
stacks > 0, then multiplied by 0.75 and truncated when the source has
Weak stacks > 0; across the `t` hits the total is absorbed by block first
(block floored at 0) and the remainder subtracts from current HP (floored
at 0).  A `None` resolved target is skipped unchanged. -/
theorem C1_damage_pipeline
    (s : CombatStateS) (i : Nat) (e : EnemyS) (D t : Nat)
    (h : s.enemies[i]? = some e) :
    applyDamageEffect s D t (EffTarget.enemyIdx i) =
      { s with
        enemies := s.enemies.set i
          { e with
            block := e.block - t *
              (if s.player.status.get .weak > 0 then
                3 * (if e.status.get .vulnerable > 0 then
                  3 * (D + s.player.status.get .strength) / 2
                else D + s.player.status.get .strength) / 4
              else (if e.status.get .vulnerable > 0 then
                  3 * (D + s.player.status.get .strength) / 2
                else D + s.player.status.get .strength))
            currentHp := e.currentHp - (t *
              (if s.player.status.get .weak > 0 then
                3 * (if e.status.get .vulnerable > 0 then
                  3 * (D + s.player.status.get .strength) / 2
                else D + s.player.status.get .strength) / 4
              else (if e.status.get .vulnerable > 0 then
                  3 * (D + s.player.status.get .strength) / 2
                else D + s.player.status.get .strength))
              - e.block) } } ∧
    applyDamageEffect s D t EffTarget.noneT = s := by
  constructor
  · have hmain := damageRepeat_enemyRef (D + s.player.status.get .strength)
      t s i e h
    simpa [applyDamageEffect, resolvedTargets, cardHitAmount] using hmain
  · exact damageRepeat_noneRef (D + s.player.status.get .strength) t s

/-- Witness for C1: Strike-like damage 6 repeated twice on the fixture
state (no statuses): two hits of 6 drop the enemy from 30 to 18 HP. -/
theorem C1_damage_pipeline_witness :
    applyDamageEffect sFix 6 2 (EffTarget.enemyIdx 0) =
      { sFix with enemies := [{ eFix with block := 0, currentHp := 18 }] } ∧
    applyDamageEffect sFix 6 2 EffTarget.noneT = sFix := by
  have h := C1_damage_pipeline sFix 0 eFix 6 2 rfl
  constructor
  · have h1 := h.1
    rw [h1]
    simp [sFix, eFix, pFix, StatusMap.empty, StatusMap.get]
  · exact h.2

/-! ### C2 -/

/-- C2 (amended): for a single-target player attack with base damage `D`,
source Strength `S`, Weak on the source and Vulnerable on the target, the
per-hit amount is `floor(floor((D+S)*1.5)*0.75)` — Vulnerable applied
before Weak, the order the code fixes for player attacks.  With target
block `B`: when `B` is at most that intermediate value, block drops to 0
and HP drops by the remainder (HP floored at 0); otherwise HP is
untouched and block is reduced by the intermediate value. -/
theorem C2_single_attack_weak_vulnerable
    (s : CombatStateS) (i : Nat) (e : EnemyS) (D : Nat)
    (h : s.enemies[i]? = some e)
    (hv : e.status.get .vulnerable > 0)
    (hw : s.player.status.get .weak > 0) :
    (e.block ≤ 3 * (3 * (D + s.player.status.get .strength) / 2) / 4 →
      (applyDamageEffect s D 1 (EffTarget.enemyIdx i)).enemies =
        s.enemies.set i
          { e with
            block := 0
            currentHp := e.currentHp -
              (3 * (3 * (D + s.player.status.get .strength) / 2) / 4
                - e.block) }) ∧
    (3 * (3 * (D + s.player.status.get .strength) / 2) / 4 < e.block →
      (applyDamageEffect s D 1 (EffTarget.enemyIdx i)).enemies =
        s.enemies.set i
          { e with
            block := e.block -
              3 * (3 * (D + s.player.status.get .strength) / 2) / 4
            currentHp := e.currentHp }) := by
  have hmain := damageRepeat_enemyRef (D + s.player.status.get .strength)
    1 s i e h
  have hA : cardHitAmount (D + s.player.status.get .strength)
      (e.status.get .vulnerable > 0) (s.player.status.get .weak > 0) =
      3 * (3 * (D + s.player.status.get .strength) / 2) / 4 := by
    simp [cardHitAmount, hv, hw]
  rw [hA] at hmain
  have happ : applyDamageEffect s D 1 (EffTarget.enemyIdx i) =
      damageRepeat (D + s.player.status.get .strength)
        [TgtRef.enemyRef i] 1 s := rfl
  constructor <;> intro hB <;>
  · rw [happ, hmain]
    dsimp only
    congr 1
    simp only [EnemyS.mk.injEq, true_and, and_true]
    constructor <;> omega

/-- Witness for C2: base damage 6 against the Vulnerable (block 3) enemy
by the Weak player: the hit amount is floor(floor(6*1.5)*0.75) = 6,
block absorbs 3, and HP drops from 30 to 27. -/
theorem C2_single_attack_weak_vulnerable_witness :
    (applyDamageEffect sFixC2 6 1 (EffTarget.enemyIdx 0)).enemies =
      [{ eFixVuln with block := 0, currentHp := 27 }] := by
  have h := (C2_single_attack_weak_vulnerable sFixC2 0 eFixVuln 6 rfl
    (by decide) (by decide)).1 (by decide)
  simpa [sFixC2, eFixVuln, pFixWeak, pFix, eFix, StatusMap.get,
    StatusMap.set, StatusMap.empty] using h

/-- Counterexample to C2 as stated: with D = 5, S = 0, Weak on the source,
Vulnerable on the target and B = 0, the code deals
floor(floor(5*1.5)*0.75) = 5 HP (30 -> 25), while the claimed formula
max(0, floor(floor((D+S)*0.75)*1.5) - B) = floor(floor(5*0.75)*1.5) = 4
predicts an HP loss of 4: the claim applies Weak before Vulnerable, the
code applies Vulnerable before Weak, and truncation makes the two orders
differ. -/
theorem C2_claimed_formula_counterexample :
    (applyDamageEffect sFixCtr 5 1 (EffTarget.enemyIdx 0)).enemies =
      [{ eFixCtr with block := 0, currentHp := 25 }] ∧
    ¬ ((30 - 25 : Nat) = 3 * (3 * (5 + 0) / 4) / 2 - 0) := by
  constructor
  · decide
  · decide

/-! ### C3 -/

/-- C3 fails on the code: `Player.take_damage(5)` on a player with block 0
(so the HP loss is unblocked) mutates block/HP/counters and then raises
`TypeError`, because `GameEvent.hp_lost(self, remaining, self._deck_manager)`
passes three arguments to the two-parameter classmethod
`hp_lost(cls, entity, amount)`.  The theorem evaluates the model at the
failing input: HP drops 50 -> 45 and the call ends in the raised error
instead of returning normally. -/
theorem C3_take_damage_raises :
    pFix.takeDamage 5 false =
      ({ pFix with currentHp := 45, damageTakenThisCombat := 5 }, 5,
        some "TypeError: hp_lost() takes 3 positional arguments but 4 were given") := by
  rfl

/-! ### C4 -/

/-- C4: whenever `can_play_card` rejects (no active combat, wrong phase,
card not in hand, unplayable flag, insufficient energy, or invalid or
missing target for a SingleEnemy card), `play_card` returns the structured
failure with that reason and the manager state — combat state included —
is exactly what it was; and `end_player_turn` outside the player phase
(or with no combat) likewise returns a failure, leaves the state
untouched, and raises nothing. -/
theorem C4_illegal_action_all_or_nothing :
    (∀ (env : Env) (ms : MgrState) (card : Card) (target : Option Nat),
      (canPlayCard ms.state card target).1 = false →
        playCard env ms card target =
          (ms, ⟨false, (canPlayCard ms.state card target).2⟩)) ∧
    (∀ (env : Env) (ms : MgrState),
      (∀ s, ms.state = some s → s.phase ≠ Phase.playerTurn) →
        (endPlayerTurn env ms).1 = ms ∧
        (endPlayerTurn env ms).2.1.success = false ∧
        (endPlayerTurn env ms).2.2 = none) := by
  constructor
  · intro env ms card target hfail
    match hms : ms.state with
    | none => simp [playCard, canPlayCard, hms]
    | some s =>
      rw [hms] at hfail
      rcases hcp : canPlayCard (some s) card target with ⟨b, r⟩
      rw [hcp] at hfail
      simp only at hfail
      subst hfail
      simp [playCard, hms, hcp]
  · intro env ms hph
    match hms : ms.state with
    | none => simp [endPlayerTurn, hms]
    | some s =>
      have hp := hph s hms
      simp [endPlayerTurn, hms, hp]

/-- Witness for C4: playing Strike with no active combat fails with the
recorded reason and identical state; ending the turn during the enemy
phase fails, changes nothing, and raises nothing. -/
theorem C4_illegal_action_all_or_nothing_witness :
    playCard envFix msNone cardFix none =
      (msNone, ⟨false, "No active combat"⟩) ∧
    (endPlayerTurn envFix msEnemyPhase).1 = msEnemyPhase ∧
    (endPlayerTurn envFix msEnemyPhase).2.1.success = false ∧
    (endPlayerTurn envFix msEnemyPhase).2.2 = none := by
  refine ⟨?_, ?_⟩
  · exact C4_illegal_action_all_or_nothing.1 envFix msNone cardFix none rfl
  · exact C4_illegal_action_all_or_nothing.2 envFix msEnemyPhase
      (by intro s hs; cases hs; decide)

/-! ### C5 -/

lemma reshuffle_totalCards {sigma : List Card → List Card}
    (hσ : ∀ l, (sigma l).length = l.length) (d : DeckState) :
    (d.reshuffleDiscardIntoDraw sigma).totalCards = d.totalCards := by
  simp only [DeckState.reshuffleDiscardIntoDraw, DeckState.totalCards, hσ,
    List.length_append, List.length_nil]
  omega

lemma refillIfNeeded_totalCards {sigma : List Card → List Card}
    (hσ : ∀ l, (sigma l).length = l.length) (d : DeckState) :
    (d.refillIfNeeded sigma).totalCards = d.totalCards := by
  unfold DeckState.refillIfNeeded
  split
  · split
    · rfl
    · exact reshuffle_totalCards hσ d
  · rfl

lemma drawLoop_totalCards {sigma : List Card → List Card}
    (hσ : ∀ l, (sigma l).length = l.length) :
    ∀ (n : Nat) (d : DeckState),
    ((DeckState.drawLoop sigma n d).1).totalCards = d.totalCards
  | 0, d => rfl
  | n + 1, d => by
    simp only [DeckState.drawLoop]
    split
    · rfl
    · have hready := refillIfNeeded_totalCards hσ d
      rcases hlast : (d.refillIfNeeded sigma).drawPile.getLast? with _ | c
      · simp only [hlast]
        exact hready
      · simp only [hlast]
        have hne : (d.refillIfNeeded sigma).drawPile ≠ [] := by
          intro hnil
          rw [hnil] at hlast
          simp at hlast
        have hpos : 0 < (d.refillIfNeeded sigma).drawPile.length :=
          List.length_pos.mpr hne
        rcases hrec : DeckState.drawLoop sigma n
            { d.refillIfNeeded sigma with
              drawPile := (d.refillIfNeeded sigma).drawPile.dropLast
              hand := (d.refillIfNeeded sigma).hand ++ [c] }
          with ⟨d', drawn⟩
        simp only [hrec]
        have hind := drawLoop_totalCards hσ n
          { d.refillIfNeeded sigma with
            drawPile := (d.refillIfNeeded sigma).drawPile.dropLast
            hand := (d.refillIfNeeded sigma).hand ++ [c] }
        rw [hrec] at hind
        simp only [DeckState.totalCards, List.length_dropLast,
          List.length_append, List.length_cons, List.length_nil] at hind
        simp only [DeckState.totalCards] at hready ⊢
        omega

lemma draw_totalCards {sigma : List Card → List Card}
    (hσ : ∀ l, (sigma l).length = l.length) (d : DeckState) (n : Nat) :
    ((d.draw sigma n).1).totalCards = d.totalCards :=
  drawLoop_totalCards hσ n d

lemma classifyHand_length :
    ∀ (l : List Card),
    (classifyHand l).1.length + (classifyHand l).2.1.length +
      (classifyHand l).2.2.length = l.length
  | [] => rfl
  | c :: cs => by
    have ih := classifyHand_length cs
    simp only [classifyHand]
    rcases h : classifyHand cs with ⟨ex, re, di⟩
    rw [h] at ih
    dsimp only at ih
    by_cases h1 : c.data.ethereal <;> by_cases h2 : c.data.retain <;>
      simp only [h, h1, h2, if_true, if_false, ite_true, ite_false,
        Bool.false_eq_true, List.length_cons] <;>
      omega

lemma clearTurnModifiers_totalCards (d : DeckState) :
    (d.clearTurnModifiers).totalCards = d.totalCards := by
  simp [DeckState.clearTurnModifiers, DeckState.totalCards]

lemma endTurn_totalCards (d : DeckState) :
    ((d.endTurn).1).totalCards = d.totalCards := by
  have hc := classifyHand_length d.hand
  simp only [DeckState.endTurn]
  rcases h : classifyHand d.hand with ⟨ex, re, di⟩
  rw [h] at hc
  dsimp only at hc ⊢
  simp only [DeckState.clearTurnModifiers, DeckState.totalCards,
    List.length_append, List.length_map]
  omega

lemma exhaustCard_totalCards (d : DeckState) (c : Card) :
    ((d.exhaustCard c).1).totalCards = d.totalCards := by
  simp only [DeckState.exhaustCard]
  split
  · rename_i hmem
    have hpos : 0 < d.hand.length :=
      List.length_pos.mpr (List.ne_nil_of_mem hmem)
    simp only [DeckState.totalCards, List.length_erase_of_mem hmem,
      List.length_append, List.length_cons, List.length_nil]
    omega
  · rfl

lemma exhaustFromDiscard_totalCards (d : DeckState) (c : Card) :
    ((d.exhaustFromDiscard c).1).totalCards = d.totalCards := by
  simp only [DeckState.exhaustFromDiscard]
  split
  · rename_i hmem
    have hpos : 0 < d.discardPile.length :=
      List.length_pos.mpr (List.ne_nil_of_mem hmem)
    simp only [DeckState.totalCards, List.length_erase_of_mem hmem,
      List.length_append, List.length_cons, List.length_nil]
    omega
  · rfl

lemma exhaustFromDraw_totalCards (d : DeckState) (c : Card) :
    ((d.exhaustFromDraw c).1).totalCards = d.totalCards := by
  simp only [DeckState.exhaustFromDraw]
  split
  · rename_i hmem
    have hpos : 0 < d.drawPile.length :=
      List.length_pos.mpr (List.ne_nil_of_mem hmem)
    simp only [DeckState.totalCards, List.length_erase_of_mem hmem,
      List.length_append, List.length_cons, List.length_nil]
    omega
  · rfl

lemma damageOneTarget_deck (dmg : Nat) (s : CombatStateS) (t : TgtRef) :
    (damageOneTarget dmg s t).deck = s.deck := by
  cases t with
  | noneRef => rfl
  | enemyRef i => rcases h : s.enemies[i]? with _ | e <;>
      simp [damageOneTarget, h]
  | playerRef => rfl

lemma damageFold_deck (dmg : Nat) :
    ∀ (tgts : List TgtRef) (s : CombatStateS),
    (tgts.foldl (damageOneTarget dmg) s).deck = s.deck
  | [], _ => rfl
  | t :: ts, s => by
    rw [List.foldl_cons, damageFold_deck dmg ts, damageOneTarget_deck]

lemma damageRepeat_deck (dmg : Nat) (tgts : List TgtRef) :
    ∀ (t : Nat) (s : CombatStateS),
    (damageRepeat dmg tgts t s).deck = s.deck
  | 0, _ => rfl
  | n + 1, s => by
    rw [damageRepeat, damageRepeat_deck dmg tgts n, damageFold_deck]

lemma statusOneTarget_deck (st : StatusType) (amount : Nat)
    (s : CombatStateS) (t : TgtRef) :
    (statusOneTarget st amount s t).deck = s.deck := by
  cases t with
  | noneRef => rfl
  | enemyRef i => rcases h : s.enemies[i]? with _ | e <;>
      simp [statusOneTarget, h]
  | playerRef => rfl

lemma statusFold_deck (st : StatusType) (amount : Nat) :
    ∀ (tgts : List TgtRef) (s : CombatStateS),
    (tgts.foldl (statusOneTarget st amount) s).deck = s.deck
  | [], _ => rfl
  | t :: ts, s => by
    rw [List.foldl_cons, statusFold_deck st amount ts, statusOneTarget_deck]

lemma checkCombatEnd_deck (s : CombatStateS) :
    (checkCombatEnd s).deck = s.deck := by
  unfold checkCombatEnd
  split
  · rfl
  · split <;> rfl

lemma applyEffect_totalCards {sigma : List Card → List Card}
    (hσ : ∀ l, (sigma l).length = l.length) (s : CombatStateS) (eff : Eff)
    (tgt : EffTarget) :
    ((applyEffect sigma s eff tgt).deck).totalCards = s.deck.totalCards := by
  cases eff with
  | damage base times =>
    show ((applyDamageEffect s base times tgt).deck).totalCards = _
    rw [applyDamageEffect, damageRepeat_deck]
  | blockGain base =>
    cases tgt with
    | enemyIdx i => rcases h : s.enemies[i]? with _ | e <;>
        simp [applyEffect, h]
    | noneT => rfl
    | enemyIdxList is => rfl
    | playerT => rfl
  | drawCards n =>
    show (((s.deck.draw sigma n).1)).totalCards = _
    exact draw_totalCards hσ s.deck n
  | applyStatus st amount =>
    show (((resolvedTargets tgt).foldl (statusOneTarget st amount) s).deck).totalCards = _
    rw [statusFold_deck]
  | gainEnergy amount => rfl
  | healHp amount =>
    cases tgt with
    | enemyIdx i => rcases h : s.enemies[i]? with _ | e <;>
        simp [applyEffect, h]
    | noneT => rfl
    | enemyIdxList is => rfl
    | playerT => rfl
  | exhaustChoice c r => rfl

lemma applyEffectsStage_totalCards {sigma : List Card → List Card}
    (hσ : ∀ l, (sigma l).length = l.length) (tgt : EffTarget) :
    ∀ (effs : List Eff) (s : CombatStateS),
    ((applyEffectsStage sigma s effs tgt).deck).totalCards =
      s.deck.totalCards
  | [], _ => rfl
  | eff :: effs, s => by
    show ((applyEffectsStage sigma (applyEffect sigma s eff tgt) effs
      tgt).deck).totalCards = _
    rw [applyEffectsStage_totalCards hσ tgt effs, applyEffect_totalCards hσ]

lemma routeCardStage_totalCards (s : CombatStateS) (card : Card) :
    ((routeCardStage s card).deck).totalCards = s.deck.totalCards + 1 := by
  unfold routeCardStage
  split <;>
    simp [DeckState.totalCards, List.length_append] <;> omega

lemma canPlayCard_hand_mem {s : CombatStateS} {card : Card}
    {target : Option Nat}
    (h : (canPlayCard (some s) card target).1 = true) :
    card ∈ s.deck.hand := by
  by_contra hmem
  simp only [canPlayCard] at h
  split at h
  · simp at h
  · simp at h

lemma playCardResolved_totalCards (env : Env)
    (hσ : ∀ l, (env.shuffle l).length = l.length)
    (s : CombatStateS) (card : Card) (target : Option Nat)
    (hmem : card ∈ s.deck.hand) :
    ((playCardResolved env s card target).deck).totalCards =
      s.deck.totalCards := by
  have hpos : 0 < s.deck.hand.length :=
    List.length_pos.mpr (List.ne_nil_of_mem hmem)
  simp only [playCardResolved]
  rw [checkCombatEnd_deck]
  show ((routeCardStage (applyEffectsStage env.shuffle
    (removeFromHandStage (spendEnergyStage s card) card) card.effects
    (resolveEffTarget (removeFromHandStage (spendEnergyStage s card) card)
      card target)) card).deck).totalCards = _
  rw [routeCardStage_totalCards, applyEffectsStage_totalCards hσ]
  simp only [removeFromHandStage, spendEnergyStage, DeckState.totalCards,
    List.length_erase_of_mem hmem]
  omega

lemma enemyTurnLoop_deck (s : CombatStateS) :
    ∀ (l : List Nat), ((enemyTurnLoop s l).1).deck = s.deck
  | [] => rfl
  | i :: rest => by
    rw [enemyTurnLoop]
    rcases h : s.enemies[i]? with _ | e
    · exact enemyTurnLoop_deck s rest
    · rcases hex : (e.startTurn).executeIntent s.player with ⟨e', p', err⟩
      cases err with
      | some msg => simp [hex]
      | none =>
        simp only [hex]
        split
        · rfl
        · exact enemyTurnLoop_deck _ rest

lemma chooseIntents_deck (env : Env) :
    ∀ (l : List Nat) (s : CombatStateS),
    (chooseIntents env l s).deck = s.deck
  | [], _ => rfl
  | i :: rest, s => by
    rw [chooseIntents]
    rcases h : s.enemies[i]? with _ | e
    · exact chooseIntents_deck env rest s
    · rw [chooseIntents_deck env rest]

lemma startPlayerTurn_totalCards (env : Env)
    (hσ : ∀ l, (env.shuffle l).length = l.length) (dc : Nat)
    (s : CombatStateS) :
    ((startPlayerTurn env dc s).deck).totalCards = s.deck.totalCards := by
  simp only [startPlayerTurn]
  exact draw_totalCards hσ _ dc

lemma executeEnemyTurn_totalCards (env : Env)
    (hσ : ∀ l, (env.shuffle l).length = l.length) (dc : Nat)
    (s : CombatStateS) :
    (((executeEnemyTurn env dc s).1).deck).totalCards =
      s.deck.totalCards := by
  unfold executeEnemyTurn
  rcases h : enemyTurnLoop { s with phase := Phase.enemyTurn }
      (livingIndices { s with phase := Phase.enemyTurn }.enemies)
    with ⟨s', err⟩
  have hdeck : s'.deck = s.deck := by
    have := enemyTurnLoop_deck { s with phase := Phase.enemyTurn }
      (livingIndices { s with phase := Phase.enemyTurn }.enemies)
    rw [h] at this
    exact this
  cases err with
  | some msg => simp [h, hdeck]
  | none =>
    simp only [h]
    split
    · simp [hdeck]
    · split
      · rw [startPlayerTurn_totalCards env hσ, chooseIntents_deck,
          checkCombatEnd_deck, hdeck]
      · simp [checkCombatEnd_deck, hdeck]

lemma endPlayerTurn_totalCards (env : Env)
    (hσ : ∀ l, (env.shuffle l).length = l.length) (ms : MgrState) :
    ((endPlayerTurn env ms).1).totalCards = ms.totalCards := by
  rcases hms : ms.state with _ | s
  · simp [endPlayerTurn, hms]
  · by_cases hph : s.phase ≠ Phase.playerTurn
    · simp [endPlayerTurn, hms, hph]
    · simp only [endPlayerTurn, hms]
      rw [if_neg hph]
      have htot := executeEnemyTurn_totalCards env hσ ms.drawCount
        { { s with deck := (s.deck.endTurn).1 } with
          player := processEndOfTurnPlayer
            { s with deck := (s.deck.endTurn).1 }.player }
      rcases hee : executeEnemyTurn env ms.drawCount
          { { s with deck := (s.deck.endTurn).1 } with
            player := processEndOfTurnPlayer
              { s with deck := (s.deck.endTurn).1 }.player }
        with ⟨s', err⟩
      rw [hee] at htot
      rw [hee]
      simp only [MgrState.totalCards, hms]
      dsimp only at htot ⊢
      rw [htot]
      exact endTurn_totalCards s.deck

lemma stepOp_totalCards (env : Env)
    (hσ : ∀ l, (env.shuffle l).length = l.length) (ms : MgrState)
    (op : CombatOp) :
    (stepOp env ms op).totalCards = ms.totalCards := by
  cases op with
  | drawOp n =>
    rcases hms : ms.state with _ | s
    · simp [stepOp, hms]
    · simp only [stepOp, hms, MgrState.totalCards]
      exact draw_totalCards hσ s.deck n
  | playCardOp c target =>
    rcases hms : ms.state with _ | s
    · simp [stepOp, playCard, hms]
    · rcases hcp : canPlayCard (some s) c target with ⟨b, r⟩
      cases b with
      | false => simp [stepOp, playCard, hms, hcp]
      | true =>
        have hmem := canPlayCard_hand_mem (by rw [hcp])
        simp only [stepOp, playCard, hms, hcp, MgrState.totalCards]
        exact playCardResolved_totalCards env hσ s c target hmem
  | endPlayerTurnOp =>
    exact endPlayerTurn_totalCards env hσ ms
  | exhaustOp c =>
    rcases hms : ms.state with _ | s
    · simp [stepOp, hms]
    · simp only [stepOp, hms, MgrState.totalCards]
      exact exhaustCard_totalCards s.deck c
  | exhaustFromDiscardOp c =>
    rcases hms : ms.state with _ | s
    · simp [stepOp, hms]
    · simp only [stepOp, hms, MgrState.totalCards]
      exact exhaustFromDiscard_totalCards s.deck c
  | exhaustFromDrawOp c =>
    rcases hms : ms.state with _ | s
    · simp [stepOp, hms]
    · simp only [stepOp, hms, MgrState.totalCards]
      exact exhaustFromDraw_totalCards s.deck c

lemma applyOps_totalCards (env : Env)
    (hσ : ∀ l, (env.shuffle l).length = l.length) :
    ∀ (ops : List CombatOp) (ms : MgrState),
    (applyOps env ms ops).totalCards = ms.totalCards
  | [], _ => rfl
  | op :: ops, ms => by
    show (applyOps env (stepOp env ms op) ops).totalCards = _
    rw [applyOps_totalCards env hσ ops, stepOp_totalCards env hσ]

lemma startCombat_totalCards (env : Env)
    (hσ : ∀ l, (env.shuffle l).length = l.length) (p : PlayerS)
    (es : List EnemyS) (dc : Nat) :
    (startCombat env p es dc).totalCards = p.masterDeck.length := by
  simp only [startCombat, MgrState.totalCards]
  rw [startPlayerTurn_totalCards env hσ, chooseIntents_deck]
  simp [DeckState.initializeFromDeck, DeckState.totalCards, hσ,
    PlayerS.startCombatReset]

/-- C5: starting a combat projects the `n`-card master deck into the
piles, and every sequence of draws, card plays, turn ends and exhaust
moves (the explicit add-card operations are excluded from `CombatOp`)
keeps `len(draw) + len(hand) + len(discard) + len(exhaust) = n` — no card
instance is created or lost, provided the shuffle is a permutation
(length-preserving is all the proof needs). -/
theorem C5_pile_conservation (env : Env)
    (hσ : ∀ l, (env.shuffle l).length = l.length)
    (p : PlayerS) (es : List EnemyS) (dc : Nat) (ops : List CombatOp) :
    (applyOps env (startCombat env p es dc) ops).totalCards =
      p.masterDeck.length := by
  rw [applyOps_totalCards env hσ, startCombat_totalCards env hσ]

/-- Witness for C5: a two-card master deck, one enemy, draw count 5, and
the operation sequence draw-then-end-turn keeps the pile total at 2. -/
theorem C5_pile_conservation_witness :
    (applyOps envFix
      (startCombat envFix { pFix with masterDeck := [cardFix, cardFix] }
        [eFix] 5)
      [CombatOp.drawOp 1, CombatOp.endPlayerTurnOp]).totalCards = 2 := by
  have h := C5_pile_conservation envFix (fun l => rfl)
    { pFix with masterDeck := [cardFix, cardFix] } [eFix] 5
    [CombatOp.drawOp 1, CombatOp.endPlayerTurnOp]
  simpa using h

/-! ### C6 -/

/-- C6 fails on the code, for the same root cause as C3: when the lethal
enemy attack reduces the player to 0 HP inside `_execute_enemy_turn`, the
`TypeError` raised while building the HP_LOST event propagates out of
`end_player_turn` before the `player.is_alive()` check runs, so the
result stays InProgress and the phase stays EnemyTurn — Defeat/CombatEnd
are never set and COMBAT_END(victory=false) is never emitted.  (The
remaining enemies do not act, but only because the exception aborts the
whole call.)  Evaluated at the failing input: player at 5 HP, first enemy
intent Attack 100, second enemy queued. -/
theorem C6_defeat_never_reached :
    (endPlayerTurn envFix msLethal).2.2 =
      some "TypeError: hp_lost() takes 3 positional arguments but 4 were given" ∧
    ((endPlayerTurn envFix msLethal).1.state.map
      (fun s => (s.result, s.phase, s.player.currentHp))) =
      some (ResultKind.inProgress, Phase.enemyTurn, 0) ∧
    ((endPlayerTurn envFix msLethal).1.state.map
      (fun s => s.enemies.map (fun e => e.moveHistory))) = some [[], []] := by
  refine ⟨rfl, rfl, rfl⟩

/-! ### C7 -/

lemma canPlayCard_true_inv {s : CombatStateS} {card : Card}
    {target : Option Nat}
    (h : (canPlayCard (some s) card target).1 = true) :
    s.phase = Phase.playerTurn ∧ card ∈ s.deck.hand ∧
      card.cost ≤ s.energy.currentEnergy := by
  simp only [canPlayCard] at h
  split at h
  case isTrue => simp at h
  case isFalse hph =>
    split at h
    case isTrue => simp at h
    case isFalse hmem =>
      split at h
      case isTrue => simp at h
      case isFalse =>
        split at h
        case isTrue => simp at h
        case isFalse hen =>
          exact ⟨not_not.mp (fun hq => hph hq), not_not.mp hmem,
            Nat.le_of_not_lt hen⟩

lemma checkCombatEnd_energy (s : CombatStateS) :
    (checkCombatEnd s).energy = s.energy := by
  unfold checkCombatEnd
  split
  · rfl
  · split <;> rfl

lemma checkCombatEnd_player (s : CombatStateS) :
    (checkCombatEnd s).player = s.player := by
  unfold checkCombatEnd
  split
  · rfl
  · split <;> rfl

lemma routeCardStage_energy (s : CombatStateS) (card : Card) :
    (routeCardStage s card).energy = s.energy := by
  unfold routeCardStage
  split <;> rfl

lemma routeCardStage_player (s : CombatStateS) (card : Card) :
    (routeCardStage s card).player = s.player := by
  unfold routeCardStage
  split <;> rfl

lemma damageOneTarget_energy (dmg : Nat) (s : CombatStateS) (t : TgtRef) :
    (damageOneTarget dmg s t).energy = s.energy ∧
    (damageOneTarget dmg s t).player.energy = s.player.energy := by
  cases t with
  | noneRef => exact ⟨rfl, rfl⟩
  | enemyRef i => rcases h : s.enemies[i]? with _ | e <;>
      simp [damageOneTarget, h]
  | playerRef => exact ⟨rfl, rfl⟩

lemma damageFold_energy (dmg : Nat) :
    ∀ (tgts : List TgtRef) (s : CombatStateS),
    (tgts.foldl (damageOneTarget dmg) s).energy = s.energy ∧
    (tgts.foldl (damageOneTarget dmg) s).player.energy = s.player.energy
  | [], _ => ⟨rfl, rfl⟩
  | t :: ts, s => by
    rw [List.foldl_cons]
    rcases damageFold_energy dmg ts (damageOneTarget dmg s t) with ⟨h1, h2⟩
    rcases damageOneTarget_energy dmg s t with ⟨h3, h4⟩
    exact ⟨h1.trans h3, h2.trans h4⟩

lemma damageRepeat_energy (dmg : Nat) (tgts : List TgtRef) :
    ∀ (t : Nat) (s : CombatStateS),
    (damageRepeat dmg tgts t s).energy = s.energy ∧
    (damageRepeat dmg tgts t s).player.energy = s.player.energy
  | 0, _ => ⟨rfl, rfl⟩
  | n + 1, s => by
    rw [damageRepeat]
    rcases damageRepeat_energy dmg tgts n (tgts.foldl (damageOneTarget dmg) s)
      with ⟨h1, h2⟩
    rcases damageFold_energy dmg tgts s with ⟨h3, h4⟩
    exact ⟨h1.trans h3, h2.trans h4⟩

lemma statusOneTarget_energy (st : StatusType) (amount : Nat)
    (s : CombatStateS) (t : TgtRef) :
    (statusOneTarget st amount s t).energy = s.energy ∧
    (statusOneTarget st amount s t).player.energy = s.player.energy := by
  cases t with
  | noneRef => exact ⟨rfl, rfl⟩
  | enemyRef i => rcases h : s.enemies[i]? with _ | e <;>
      simp [statusOneTarget, h]
  | playerRef => exact ⟨rfl, rfl⟩

lemma statusFold_energy (st : StatusType) (amount : Nat) :
    ∀ (tgts : List TgtRef) (s : CombatStateS),
    (tgts.foldl (statusOneTarget st amount) s).energy = s.energy ∧
    (tgts.foldl (statusOneTarget st amount) s).player.energy =
      s.player.energy
  | [], _ => ⟨rfl, rfl⟩
  | t :: ts, s => by
    rw [List.foldl_cons]
    rcases statusFold_energy st amount ts (statusOneTarget st amount s t)
      with ⟨h1, h2⟩
    rcases statusOneTarget_energy st amount s t with ⟨h3, h4⟩
    exact ⟨h1.trans h3, h2.trans h4⟩

lemma applyEffect_energy (sigma : List Card → List Card) (s : CombatStateS)
    (eff : Eff) (tgt : EffTarget) :
    (applyEffect sigma s eff tgt).energy = s.energy ∧
    (applyEffect sigma s eff tgt).player.energy =
      s.player.energy + gainEnergyAmt eff := by
  cases eff with
  | damage base times =>
    have h := damageRepeat_energy (base + s.player.status.get .strength)
      (resolvedTargets tgt) times s
    simpa [applyEffect, applyDamageEffect, gainEnergyAmt] using h
  | blockGain base =>
    cases tgt with
    | enemyIdx i => rcases h : s.enemies[i]? with _ | e <;>
        simp [applyEffect, h, gainEnergyAmt]
    | noneT => simp [applyEffect, gainEnergyAmt]
    | enemyIdxList is => simp [applyEffect, gainEnergyAmt]
    | playerT => simp [applyEffect, gainEnergyAmt]
  | drawCards n => simp [applyEffect, gainEnergyAmt]
  | applyStatus st amount =>
    have h := statusFold_energy st amount (resolvedTargets tgt) s
    simpa [applyEffect, gainEnergyAmt] using h
  | gainEnergy amount => simp [applyEffect, gainEnergyAmt]
  | healHp amount =>
    cases tgt with
    | enemyIdx i => rcases h : s.enemies[i]? with _ | e <;>
        simp [applyEffect, h, gainEnergyAmt, PlayerS.heal]
    | noneT => simp [applyEffect, gainEnergyAmt, PlayerS.heal]
    | enemyIdxList is => simp [applyEffect, gainEnergyAmt, PlayerS.heal]
    | playerT => simp [applyEffect, gainEnergyAmt, PlayerS.heal]
  | exhaustChoice c r => simp [applyEffect, gainEnergyAmt]

lemma applyEffectsStage_energy (sigma : List Card → List Card)
    (tgt : EffTarget) :
    ∀ (effs : List Eff) (s : CombatStateS),
    (applyEffectsStage sigma s effs tgt).energy = s.energy ∧
    (applyEffectsStage sigma s effs tgt).player.energy =
      s.player.energy + gainEnergyTotal effs
  | [], s => ⟨rfl, by simp [applyEffectsStage, gainEnergyTotal]⟩
  | eff :: effs, s => by
    have hstep := applyEffect_energy sigma s eff tgt
    have hrest := applyEffectsStage_energy sigma tgt effs
      (applyEffect sigma s eff tgt)
    refine ⟨?_, ?_⟩
    · exact hrest.1.trans hstep.1
    · show (applyEffectsStage sigma (applyEffect sigma s eff tgt) effs
        tgt).player.energy = _
      rw [hrest.2, hstep.2]
      simp [gainEnergyTotal]
      omega

lemma playCardResolved_energy (env : Env) (s : CombatStateS) (card : Card)
    (target : Option Nat)
    (hcost : card.cost ≤ s.energy.currentEnergy) :
    (playCardResolved env s card target).energy.currentEnergy =
      s.energy.currentEnergy - card.cost ∧
    (playCardResolved env s card target).player.energy =
      s.energy.currentEnergy - card.cost + gainEnergyTotal card.effects := by
  have hspend : (s.energy.spend card.cost).1 =
      { s.energy with
        currentEnergy := s.energy.currentEnergy - card.cost } := by
    unfold EnergyState.spend
    rw [if_pos hcost]
  simp only [playCardResolved]
  rcases applyEffectsStage_energy env.shuffle
      (resolveEffTarget (removeFromHandStage (spendEnergyStage s card) card)
        card target)
      card.effects (removeFromHandStage (spendEnergyStage s card) card)
    with ⟨heff1, heff2⟩
  constructor
  · rw [checkCombatEnd_energy]
    show (routeCardStage (applyEffectsStage env.shuffle
      (removeFromHandStage (spendEnergyStage s card) card) card.effects
      (resolveEffTarget (removeFromHandStage (spendEnergyStage s card) card)
        card target)) card).energy.currentEnergy = _
    rw [routeCardStage_energy, heff1]
    simp only [removeFromHandStage, spendEnergyStage, hspend]
  · rw [checkCombatEnd_player]
    show (routeCardStage (applyEffectsStage env.shuffle
      (removeFromHandStage (spendEnergyStage s card) card) card.effects
      (resolveEffTarget (removeFromHandStage (spendEnergyStage s card) card)
        card target)) card).player.energy = _
    rw [routeCardStage_player, heff2]
    simp [removeFromHandStage, spendEnergyStage, hspend]

/-- C7 (amended): `GainEnergyEffect` with the player as source adds its
amount to the `Player.energy` attribute only.  The energy `canPlayCard`
consults is `EnergySystem.current_energy`, which after a successful
`play_card` of effective cost `c` has changed by exactly `-c` no matter
what GainEnergy effects the card carries; the gained `k` shows up only in
`player.energy` (set to `current - c + k`), which no legality check
reads. -/
theorem C7_gain_energy_target_split (env : Env) (ms : MgrState)
    (s : CombatStateS) (card : Card) (target : Option Nat)
    (hms : ms.state = some s)
    (hcp : (canPlayCard (some s) card target).1 = true) :
    ((playCard env ms card target).1.state.map
      (fun st => st.energy.currentEnergy)) =
      some (s.energy.currentEnergy - card.cost) ∧
    ((playCard env ms card target).1.state.map
      (fun st => st.player.energy)) =
      some (s.energy.currentEnergy - card.cost +
        gainEnergyTotal card.effects) := by
  have hcost := (canPlayCard_true_inv hcp).2.2
  obtain ⟨hres1, hres2⟩ := playCardResolved_energy env s card target hcost
  rcases hcpeq : canPlayCard (some s) card target with ⟨b, r⟩
  rw [hcpeq] at hcp
  simp only at hcp
  subst hcp
  simp only [playCard, hms, hcpeq, Option.map_some]
  exact ⟨congrArg some hres1, congrArg some hres2⟩

/-- Witness for C7: playing the zero-cost GainEnergy-2 card leaves the
energy system at 3 (changed by `-c = 0`) while `player.energy` becomes
5. -/
theorem C7_gain_energy_target_split_witness :
    ((playCard envFix msGain cardGain none).1.state.map
      (fun st => st.energy.currentEnergy)) = some 3 ∧
    ((playCard envFix msGain cardGain none).1.state.map
      (fun st => st.player.energy)) = some 5 := by
  have h := C7_gain_energy_target_split envFix msGain sGain cardGain none
    rfl (by decide)
  simpa [sGain, sFix, deckFix, pFix, cardGain, Card.cost, gainEnergyTotal,
    gainEnergyAmt] using h

/-- Counterexample to C7 as stated: after playing the cost-0 card with
GainEnergy 2, the current energy consulted by `canPlayCard`
(`energy_system.current_energy`) is still 3 — it did not change by
`k - c = 2`, because `GainEnergyEffect.apply` wrote to `player.energy`
(now 5) instead of the energy system. -/
theorem C7_gain_energy_claim_counterexample :
    ((playCard envFix msGain cardGain none).1.state.map
      (fun st => st.energy.currentEnergy)) = some 3 ∧
    ((playCard envFix msGain cardGain none).1.state.map
      (fun st => st.player.energy)) = some 5 ∧
    ¬ ((3 : Nat) = 3 + 2 - 0) := by
  refine ⟨rfl, rfl, by decide⟩

/-! ### C8 -/

/-- C8 fails on the code: `GameEvent.combat_start(player, enemies)` — the
event `CombatManager.start_combat` emits — stores only the `player` and
`enemies` keys, so its data bag carries no deck-manager reference, and
`_ring_of_snake_effect`, which reads `event.data.get("deck_manager")`,
finds `None` and draws nothing (tests/test_relics.py expects 7 cards in
hand after `start_combat`). -/
theorem C8_combat_start_payload_missing_deck_manager
    (sigma : List Card → List Card) (p : PlayerS) (es : List EnemyS) :
    (GameEventM.combatStart p es).data.deckManagerKey = none ∧
    ringOfSnakeEffect sigma (GameEventM.combatStart p es) = none :=
  ⟨rfl, rfl⟩

/-! ### C9 -/

lemma map_clearTurnModifiers_all (l : List Card) :
    (l.map Card.clearTurnModifiers).all
      (fun c => c.costThisTurn.isNone) = true := by
  simp [List.all_eq_true, Card.clearTurnModifiers]

/-- C9 (amended): after `DeckManager.end_turn`, every card in the draw,
hand and discard piles has its per-turn cost override cleared —
`clear_turn_modifiers` iterates `hand + draw_pile + discard_pile` — but
the exhaust pile is not visited, so exhaust-pile cards (including the
ethereal cards this very `end_turn` just exhausted) keep their
`cost_this_turn`. -/
theorem C9_turn_overrides_cleared_except_exhaust (d : DeckState) :
    ((((d.endTurn).1).drawPile ++ ((d.endTurn).1).hand ++
      ((d.endTurn).1).discardPile).all
      (fun c => c.costThisTurn.isNone)) = true := by
  simp only [DeckState.endTurn]
  rcases h : classifyHand d.hand with ⟨ex, re, di⟩
  dsimp only
  simp only [DeckState.clearTurnModifiers, List.all_append,
    map_clearTurnModifiers_all, Bool.and_self]

/-- Counterexample to C9 as stated: a hand with one ethereal card whose
`cost_this_turn` is 1.  `end_turn` moves it to the exhaust pile and the
override survives, so not every card in every pile has its per-turn
override cleared. -/
theorem C9_exhaust_pile_keeps_override_counterexample :
    ((dEthereal.endTurn).1).exhaustPile = [cardEthereal] ∧
    (((dEthereal.endTurn).1).exhaustPile.all
      (fun c => c.costThisTurn.isNone)) = false := by
  refine ⟨rfl, rfl⟩

/-! ### C10 -/

lemma map_snd_filter_ne (h : Nat) :
    ∀ (l : List (Int × Nat)),
    (l.filter (fun ph => ph.2 ≠ h)).map (fun ph => ph.2) =
      (l.map (fun ph => ph.2)).filter (fun g => g ≠ h)
  | [] => rfl
  | x :: xs => by
    have ih := map_snd_filter_ne h xs
    simp only [ne_eq, decide_not] at ih
    simp only [List.filter_cons, List.map_cons, ne_eq, decide_not]
    by_cases hx : x.2 = h
    · simp [hx, ih]
    · simp [hx, ih]

/-- C10 (amended): `unsubscribe(handle)` removes from the handle's event
kind every registration whose handler function equals the handle's
handler — a second, separately subscribed registration of the same
function is removed too — so subsequent emits of that kind run exactly
the previous handler sequence with that function filtered out.
Registrations of other handler functions, and all other event kinds, are
untouched, and exactly that handle's id leaves the registry. -/
theorem C10_unsubscribe_removes_all_equal_handlers (b : BusState)
    (handlerId : Nat) (et : EventKindM) (h : Nat)
    (hl : lookupHandlerId b.handlerIds handlerId = some (et, h)) :
    ((b.unsubscribe handlerId).1.emitOrder et =
      (b.emitOrder et).filter (fun g => g ≠ h)) ∧
    (∀ et', et' ≠ et →
      (b.unsubscribe handlerId).1.handlers et' = b.handlers et') ∧
    ((b.unsubscribe handlerId).1.handlerIds =
      b.handlerIds.filter (fun e => e.1 ≠ handlerId)) ∧
    ((b.unsubscribe handlerId).2 = true) := by
  unfold BusState.unsubscribe
  rw [hl]
  refine ⟨?_, ?_, rfl, rfl⟩
  · show ((if et = et then (b.handlers et).filter (fun ph => ph.2 ≠ h)
      else b.handlers et).map (fun ph => ph.2)) = _
    rw [if_pos rfl]
    exact map_snd_filter_ne h (b.handlers et)
  · intro et' hne
    show (if et' = et then (b.handlers et).filter (fun ph => ph.2 ≠ h)
      else b.handlers et') = _
    rw [if_neg hne]

/-- Witness for C10 (amended): with handler 7 (id 0) and handler 9 (id 1)
subscribed to HP_LOST, unsubscribing id 0 leaves exactly handler 9
running. -/
theorem C10_unsubscribe_removes_all_equal_handlers_witness :
    (busTwo.unsubscribe 0).1.emitOrder EventKindM.hpLost = [9] ∧
    (busTwo.unsubscribe 0).1.handlerIds = [(1, EventKindM.hpLost, 9)] ∧
    (busTwo.unsubscribe 0).2 = true := by
  have h := C10_unsubscribe_removes_all_equal_handlers busTwo 0
    EventKindM.hpLost 7 rfl
  refine ⟨?_, ?_, h.2.2.2⟩
  · rw [h.1]
    rfl
  · rw [h.2.2.1]
    rfl

/-- Counterexample to C10 as stated: subscribe the same handler function
(7) twice to HP_LOST (ids 0 and 1), then unsubscribe id 0.  The id-1
registration is still recorded in the id table, yet no handler at all
runs on a subsequent HP_LOST emit — the second registration of the same
function was silently removed from the handler list too. -/
theorem C10_second_registration_counterexample :
    (busDup.unsubscribe 0).1.emitOrder EventKindM.hpLost = [] ∧
    lookupHandlerId ((busDup.unsubscribe 0).1).handlerIds 1 =
      some (EventKindM.hpLost, 7) := by
  refine ⟨rfl, rfl⟩

end RDB
